import Mathlib

/-!
Shallow embedding of the GithubInsight server (src/server/routes.ts,
src/server/services/openrouter.ts, the in-memory storage of shared
schema/storage modules), together with theorems settling claims C1-C10.

Modelling conventions:
- JavaScript strings are Lean `String`s; list-level reasoning goes through
  `String.data`.
- Machine numbers that stay integral are `Nat`/`Int`; the floating-point
  arithmetic of the language-percentage computation is modelled over `ℚ`.
- Impure inputs (current time, timezone offset, locale date formatting,
  Math.random draws, network responses) are explicit parameters.
- Fallible JavaScript code (thrown errors) returns `Except`.
-/

set_option maxRecDepth 40000

namespace GHI

/-- Decimal digit character of a digit value; callers only pass 0-9. -/
def digitChar : Nat → Char
  | 0 => '0'
  | 1 => '1'
  | 2 => '2'
  | 3 => '3'
  | 4 => '4'
  | 5 => '5'
  | 6 => '6'
  | 7 => '7'
  | 8 => '8'
  | _ => '9'

/-- Fuel-driven decimal digit list of a natural number (most significant digit
first); the fuel `n + 1` in `natChars` always suffices. -/
def natCharsAux : Nat → Nat → List Char
  | 0, _ => []
  | fuel + 1, n =>
    if n < 10 then [digitChar n] else natCharsAux fuel (n / 10) ++ [digitChar (n % 10)]

/-- Decimal digits of a natural number. -/
def natChars (n : Nat) : List Char := natCharsAux (n + 1) n

/-- Embedding of JavaScript decimal string conversion of a natural number. -/
def natStr (n : Nat) : String := String.mk (natChars n)

/-- Embedding of JavaScript decimal string conversion of an integer. -/
def intStr (i : Int) : String :=
  if i < 0 then "-" ++ natStr i.natAbs else natStr i.natAbs

/-- Floor of a rational, computed from its reduced numerator and (positive)
denominator; used because it evaluates by kernel reduction. -/
def ratFloor (q : ℚ) : Int := q.num.fdiv q.den

/-- Embedding of Math.round on the rational model: floor of x + 1/2. -/
def jsRound (q : ℚ) : Int := ratFloor (q + 1 / 2)

/-- Digit part shared by `toFixed1`: k tenths printed as "int.frac". -/
def toFixed1Core (k : Nat) : String := natStr (k / 10) ++ "." ++ natStr (k % 10)

/-- Embedding of Number.prototype.toFixed(1): round to one decimal place and
print with exactly one digit after the point. -/
def toFixed1 (q : ℚ) : String :=
  if q < 0 then "-" ++ toFixed1Core (jsRound (-q * 10)).natAbs
  else toFixed1Core (jsRound (q * 10)).natAbs

/-- Substring test on character lists, the embedding of
String.prototype.includes. -/
def hasSub : List Char → List Char → Bool
  | pat, [] => pat.isEmpty
  | pat, c :: t => pat.isPrefixOf (c :: t) || hasSub pat t

/-- String.prototype.includes. -/
def jsIncludes (s pat : String) : Bool := hasSub pat.data s.data

/-- String.prototype.endsWith. -/
def jsEndsWith (s pat : String) : Bool := List.isSuffixOf pat.data s.data

/-- Embedding of the JavaScript expression `x || dflt` for a nullable string:
null and the empty string are falsy. -/
def jsOr : Option String → String → String
  | some s, dflt => if s = "" then dflt else s
  | none, dflt => dflt

/-- Template-literal interpolation of a possibly-null string. -/
def jsNull : Option String → String
  | some s => s
  | none => "null"

/-- Template-literal interpolation of a possibly-undefined string. -/
def jsUndef : Option String → String
  | some s => s
  | none => "undefined"

/-- Falsiness test used by `if (!owner || !repo)`: undefined and the empty
string are falsy. -/
def jsFalsy : Option String → Bool
  | some s => s == ""
  | none => true

/-- Embedding of String.prototype.toLowerCase (ASCII case mapping). -/
def jsToLower (s : String) : String := String.mk (s.data.map Char.toLower)

/-- Embedding of getRelativeTimeString (routes.ts). Arguments are epoch
milliseconds; Math.floor of a division is Int.fdiv. -/
def getRelativeTimeString (nowMs dateMs : Int) : String :=
  let diffInSeconds := (nowMs - dateMs).fdiv 1000
  if diffInSeconds < 60 then "just now"
  else
    let diffInMinutes := diffInSeconds.fdiv 60
    if diffInMinutes < 60 then
      intStr diffInMinutes ++ " minute" ++ (if diffInMinutes > 1 then "s" else "") ++ " ago"
    else
      let diffInHours := diffInMinutes.fdiv 60
      if diffInHours < 24 then
        intStr diffInHours ++ " hour" ++ (if diffInHours > 1 then "s" else "") ++ " ago"
      else
        let diffInDays := diffInHours.fdiv 24
        if diffInDays < 30 then
          intStr diffInDays ++ " day" ++ (if diffInDays > 1 then "s" else "") ++ " ago"
        else
          let diffInMonths := diffInDays.fdiv 30
          if diffInMonths < 12 then
            intStr diffInMonths ++ " month" ++ (if diffInMonths > 1 then "s" else "") ++ " ago"
          else
            let diffInYears := diffInMonths.fdiv 12
            intStr diffInYears ++ " year" ++ (if diffInYears > 1 then "s" else "") ++ " ago"

/-- Unit formatting of the specification's relative-time wording: value,
space, unit, plural "s" exactly when the value differs from 1, " ago". -/
def pluralUnit (n : Nat) (unit : String) : String :=
  natStr n ++ " " ++ unit ++ (if n ≠ 1 then "s" else "") ++ " ago"

/-- Relative-time algorithm exactly as worded in the specification
(section 4.2): thresholds on elapsed seconds, unit values by floor division,
"month" while floor(days/30) is below 12 (the 30*86400*12 approximation).
This is the comparison point for claim C4, not a translation of the code. -/
def relativeTimeSpecWorded (s : Nat) : String :=
  if s < 60 then "just now"
  else if s < 3600 then pluralUnit (s / 60) "minute"
  else if s < 86400 then pluralUnit (s / 3600) "hour"
  else if s < 30 * 86400 then pluralUnit (s / 86400) "day"
  else if s / 86400 / 30 < 12 then pluralUnit (s / 86400 / 30) "month"
  else pluralUnit (s / 86400 / 30 / 12) "year"

/-- Intermediate form of the code's relative-time function over elapsed
seconds as a natural number. -/
def relTimeNat (s : Nat) : String :=
  if s < 60 then "just now"
  else if s / 60 < 60 then
    natStr (s / 60) ++ " minute" ++ (if s / 60 > 1 then "s" else "") ++ " ago"
  else if s / 60 / 60 < 24 then
    natStr (s / 60 / 60) ++ " hour" ++ (if s / 60 / 60 > 1 then "s" else "") ++ " ago"
  else if s / 60 / 60 / 24 < 30 then
    natStr (s / 60 / 60 / 24) ++ " day" ++ (if s / 60 / 60 / 24 > 1 then "s" else "") ++ " ago"
  else if s / 60 / 60 / 24 / 30 < 12 then
    natStr (s / 60 / 60 / 24 / 30) ++ " month" ++ (if s / 60 / 60 / 24 / 30 > 1 then "s" else "") ++ " ago"
  else
    natStr (s / 60 / 60 / 24 / 30 / 12) ++ " year" ++ (if s / 60 / 60 / 24 / 30 / 12 > 1 then "s" else "") ++ " ago"

/-- One step of character splitting: prepend a character to the first piece. -/
def consHead (c : Char) : List (List Char) → List (List Char)
  | [] => [[c]]
  | h :: r => (c :: h) :: r

/-- Split a character list at every occurrence of a separator character,
keeping the (possibly empty) pieces between separators in order. -/
def splitOnChar (sep : Char) : List Char → List (List Char)
  | [] => [[]]
  | c :: t => if c = sep then [] :: splitOnChar sep t else consHead c (splitOnChar sep t)

/-- Line decomposition of a character list. -/
def lineSplit (l : List Char) : List (List Char) := splitOnChar '\n' l

/-- Last element of a list of character lists, [] when the list is empty. -/
def lastD : List (List Char) → List Char
  | [] => []
  | [x] => x
  | _ :: t => lastD t

/-- First element of a list of character lists, [] when the list is empty. -/
def headD2 : List (List Char) → List Char
  | [] => []
  | h :: _ => h

/-- Clean-lines predicate: the character list, cut at newlines, contains no
line equal to `pat`, and its final line is empty (it ends with a newline or
is empty). -/
def LinesOk (pat s : List Char) : Prop := pat ∉ lineSplit s ∧ lastD (lineSplit s) = []

instance (pat s : List Char) : Decidable (LinesOk pat s) := by
  unfold LinesOk; infer_instance

/-- Heading line whose absence claim C8 asserts. -/
def installHeadingLine : List Char :=
  ['#', '#', ' ', 'I', 'n', 's', 't', 'a', 'l', 'l', 'a', 't', 'i', 'o', 'n']

/-- Characters that decimal digit strings consist of. -/
def digitChars : List Char := ['0', '1', '2', '3', '4', '5', '6', '7', '8', '9']

/-- Language chart entry of the cached record. -/
structure LangEntry where
  name : String
  percentage : ℚ
  color : String
deriving DecidableEq

/-- Commit-activity chart bucket of the cached record. -/
structure CommitBucket where
  month : String
  count : Nat
deriving DecidableEq

/-- Synthetic complex-files entry of the cached record. -/
structure ComplexFile where
  path : String
  complexity : Nat
  level : String
deriving DecidableEq

/-- Synthetic dependency entry of the cached record. -/
structure DependencyEntry where
  name : String
  version : String
  status : String
deriving DecidableEq

/-- Cached repository record (shared schema). Nullable text/integer columns
are Option-valued; the jsonb columns are not nullable. -/
structure Repository where
  id : String
  fullName : String
  description : Option String
  ownerAvatar : Option String
  stars : Option String
  forks : Option String
  openIssues : Option String
  language : Option String
  createdAt : Option String
  lastUpdated : Option String
  codeQuality : Option Nat
  codeCoverage : Option Nat
  commitFrequency : Option String
  activeContributors : Option Nat
  languages : List LangEntry
  commitActivity : List CommitBucket
  complexFiles : List ComplexFile
  dependencies : List DependencyEntry
deriving DecidableEq

/-- Environment-dependent inputs of fetchRepositoryData: clock, timezone
offset, locale date formatting, and the results of the Math.random draws. -/
structure JsEnv where
  nowMs : Int
  tzOffsetSec : Int
  formatLongDate : Int → String
  randQuality : Nat
  randCoverage : Nat
  randContributors : Nat

/-- Metadata-provider repository payload (only the fields the code reads);
the two timestamps are epoch milliseconds (the Date parse of the ISO
strings). -/
structure RepoInfo where
  id : Nat
  full_name : String
  description : Option String
  language : Option String
  avatar_url : String
  stargazers_count : Nat
  forks_count : Nat
  open_issues_count : Nat
  created_at : Int
  updated_at : Int
deriving DecidableEq

/-- Weekly commit-activity bucket of the provider response. -/
structure WeekBucket where
  week : Int
  total : Nat
deriving DecidableEq

/-- Body of the commit-activity response: a JSON array of weekly buckets, a
truthy non-array value (such as the "statistics are being computed" object),
or a falsy body, which the code's `|| []` coerces to an empty array. -/
inductive CommitPayload where
  | arr (weeks : List WeekBucket)
  | nonArrayTruthy
  | falsy
deriving DecidableEq

/-- Axios failure: an HTTP error response (status plus the response body's
message field) or a transport error without a response. -/
inductive AxiosFailure where
  | httpErr (status : Nat) (message : Option String)
  | netErr
deriving DecidableEq

deriving instance DecidableEq for Except

/-- One ingestion's provider responses (repository info, languages byte map,
commit-activity series), in the order the code requests them. -/
structure GitHubProvider where
  repoInfo : Except AxiosFailure RepoInfo
  languagesBody : Except AxiosFailure (List (String × Nat))
  commitBody : Except AxiosFailure CommitPayload
deriving DecidableEq

/-- Embedding of formatNumber (routes.ts). -/
def formatNumber (num : Nat) : String :=
  if num ≥ 1000000 then toFixed1 ((num : ℚ) / 1000000) ++ "M"
  else if num ≥ 1000 then toFixed1 ((num : ℚ) / 1000) ++ "k"
  else natStr num

/-- Fixed language colour table of fetchRepositoryData. -/
def languageColors : List (String × String) :=
  [("JavaScript", "#f1e05a"), ("TypeScript", "#3178c6"), ("HTML", "#e34c26"),
   ("CSS", "#563d7c"), ("Python", "#3572A5"), ("Java", "#b07219"), ("Go", "#00ADD8"),
   ("Rust", "#dea584"), ("C", "#555555"), ("C++", "#f34b7d"), ("C#", "#178600")]

/-- Colour lookup with the neutral default for unknown languages. -/
def colorOf (name : String) : String := (languageColors.lookup name).getD "#808080"

/-- Month labels used by fetchRepositoryData. -/
def monthNames : List String :=
  ["Jan", "Feb", "Mar", "Apr", "May", "Jun", "Jul", "Aug", "Sep", "Oct", "Nov", "Dec"]

/-- Zero-based civil-calendar month of a day count since 1970-01-01. -/
def civilMonthIdx (z : Int) : Nat :=
  let z2 := z + 719468
  let era := z2.fdiv 146097
  let doe := (z2 - era * 146097).toNat
  let yoe := (doe - doe / 1460 + doe / 36524 - doe / 146096) / 365
  let doy := doe - (365 * yoe + yoe / 4 - yoe / 100)
  let mp := (5 * doy + 2) / 153
  if mp < 10 then mp + 2 else mp - 10

/-- Embedding of Date.prototype.getMonth on an epoch-milliseconds value:
the civil month in local time under the environment's UTC offset. -/
def jsGetMonth (tzOffsetSec ms : Int) : Nat :=
  civilMonthIdx ((ms.fdiv 1000 + tzOffsetSec).fdiv 86400)

/-- JavaScript Array.prototype.slice with a negative start: the last `n`
elements (the whole list when it is shorter). -/
def takeRight {α : Type} (n : Nat) (l : List α) : List α := l.drop (l.length - n)

/-- Coercion `commitActivityResponse.data || []` applied to the payload. -/
def coerceCommitData : CommitPayload → CommitPayload
  | .falsy => .arr []
  | p => p

/-- Commit-activity normalization of fetchRepositoryData: the last seven
weekly buckets labelled with their week's month, or, for a non-array body,
seven synthesized buckets with count 0 labelled by weekly steps back from
the current date. -/
def commitActivityOf (env : JsEnv) (payload : CommitPayload) : List CommitBucket :=
  match coerceCommitData payload with
  | .arr ws =>
    (takeRight 7 ws).map fun w =>
      { month := (monthNames.get? (jsGetMonth env.tzOffsetSec (w.week * 1000))).getD "",
        count := w.total }
  | _ =>
    (List.range 7).map fun index =>
      { month := (monthNames.get? (jsGetMonth env.tzOffsetSec
          (env.nowMs - (index : Int) * 7 * 86400000))).getD "",
        count := 0 }

/-- Average weekly commits over up to the last 12 buckets; `|| 1` guards the
zero denominator. Non-array commit data averages to 0. -/
def averageWeeklyCommits (payload : CommitPayload) : ℚ :=
  match coerceCommitData payload with
  | .arr ws =>
    ((takeRight 12 ws).map fun w => (w.total : ℚ)).sum /
      (if min ws.length 12 = 0 then 1 else ((min ws.length 12 : Nat) : ℚ))
  | _ => 0

/-- Language percentage computation of fetchRepositoryData: byte count over
the zero-guarded total, times 100, with the colour-table lookup. -/
def languagesOf (langsData : List (String × Nat)) : List LangEntry :=
  let totalBytes : Nat := (langsData.map (fun entry => entry.2)).sum
  langsData.map fun entry =>
    { name := entry.1,
      percentage := (entry.2 : ℚ) / (if totalBytes = 0 then (1 : ℚ) else (totalBytes : ℚ)) * 100,
      color := colorOf entry.1 }

/-- Fixed-shape synthetic complex-files list (paths templated on the repo
name). -/
def complexFilesOf (repo : String) : List ComplexFile :=
  [{ path := "src/core/" ++ repo ++ "Core.js", complexity := 85, level := "High" },
   { path := "src/components/" ++ repo ++ "Component.js", complexity := 65, level := "Medium" },
   { path := "src/utils/helpers.js", complexity := 45, level := "Low" }]

/-- Fixed-shape synthetic dependencies list. -/
def dependenciesOf : List DependencyEntry :=
  [{ name := "react", version := "^18.2.0", status := "Up to date" },
   { name := "lodash", version := "^4.17.21", status := "Up to date" },
   { name := "axios", version := "^0.21.1", status := "Update available" }]

/-- Embedding of fetchRepositoryData (routes.ts): three sequential provider
calls, then normalization into a Repository. The Math.random draws are
modelled by their drawn results in the environment. The second component
counts the provider calls issued. -/
def fetchRepositoryData (env : JsEnv) (p : GitHubProvider) (owner repo : String) :
    Except AxiosFailure Repository × Nat :=
  match p.repoInfo with
  | .error e => (.error e, 1)
  | .ok info =>
    match p.languagesBody with
    | .error e => (.error e, 2)
    | .ok langsData =>
      match p.commitBody with
      | .error e => (.error e, 3)
      | .ok payload =>
        (.ok
          { id := natStr info.id,
            fullName := info.full_name,
            description := some (jsOr info.description
              ("A " ++ jsNull info.language ++ " repository")),
            ownerAvatar := some info.avatar_url,
            stars := some (formatNumber info.stargazers_count),
            forks := some (formatNumber info.forks_count),
            openIssues := some (formatNumber info.open_issues_count),
            language := some (jsOr info.language "Unknown"),
            createdAt := some (env.formatLongDate info.created_at),
            lastUpdated := some (getRelativeTimeString env.nowMs info.updated_at),
            codeQuality := some env.randQuality,
            codeCoverage := some env.randCoverage,
            commitFrequency := some (intStr (jsRound (averageWeeklyCommits payload)) ++ "/week"),
            activeContributors := some env.randContributors,
            languages := languagesOf langsData,
            commitActivity := commitActivityOf env payload,
            complexFiles := complexFilesOf repo,
            dependencies := dependenciesOf }, 3)

/-- In-memory storage (MemStorage.repositories): a JavaScript Map keyed by
record id, modelled as an insertion-ordered association list. -/
abbrev Storage := List (String × Repository)

/-- Map.prototype.set: replace the entry in place when the key exists, else
append. -/
def mapSet (st : Storage) (k : String) (v : Repository) : Storage :=
  if st.any (fun q => q.1 == k) then
    st.map fun q => if q.1 == k then (k, v) else q
  else st ++ [(k, v)]

/-- MemStorage.getRepository: Map lookup by id. -/
def getRepository (st : Storage) (id : String) : Option Repository :=
  (st.find? (fun q => q.1 == id)).map (fun q => q.2)

/-- MemStorage.getRepositoryByFullName: first stored value, in insertion
order, whose fullName matches. -/
def getRepositoryByFullName (st : Storage) (fullName : String) : Option Repository :=
  (st.map (fun q => q.2)).find? (fun r => r.fullName == fullName)

/-- MemStorage.createRepository: spread-copy the record and store it under
its id. -/
def createRepository (st : Storage) (r : Repository) : Repository × Storage :=
  (r, mapSet st r.id r)

/-- Strip one trailing slash, the url.replace of the trailing-slash regex. -/
def stripOneTrailingSlash (l : List Char) : List Char :=
  if l.getLast? = some '/' then l.dropLast else l

/-- Owner/repo extraction of the /api/analyze handler: split the stripped
URL on "/" and take the last two segments; an out-of-range index is the
JavaScript undefined, modelled as none. -/
def extractOwnerRepo (url : String) : Option String × Option String :=
  let urlParts := splitOnChar '/' (stripOneTrailingSlash url.data)
  (if urlParts.length < 2 then none
   else (urlParts.get? (urlParts.length - 2)).map String.mk,
   (urlParts.get? (urlParts.length - 1)).map String.mk)

/-- Observable outcome of the /api/analyze handler. -/
inductive HandlerOutcome where
  | okRepo (r : Repository)
  | badRequest (msg : String)
  | upstreamError (status : Nat) (msg : String)
  | serverError (msg : String)
deriving DecidableEq

/-- Mapping of a fetch failure in the /api/analyze catch block. -/
def mapAxiosFailure : AxiosFailure → HandlerOutcome
  | .httpErr status message =>
    .upstreamError status ("GitHub API error: " ++ jsOr message "Unknown error")
  | .netErr => .serverError "Failed to analyze repository"

/-- Embedding of the /api/analyze handler: body validation (the z.string
url-format verdict is the urlOk input; the refine check is the github.com
containment), owner/repo extraction with the falsiness guard, cache lookup
by fullName, fetch on a miss, store, respond. Returns the outcome, the
updated storage, and the number of provider calls issued. -/
def analyzeHandler (env : JsEnv) (p : GitHubProvider) (urlOk : Bool) (url : String)
    (st : Storage) : HandlerOutcome × Storage × Nat :=
  if !urlOk then (.badRequest "Invalid URL format", st, 0)
  else if !(jsIncludes url "github.com") then
    (.badRequest "URL must be a GitHub repository", st, 0)
  else
    match extractOwnerRepo url with
    | (some owner, some repo) =>
      if owner == "" || repo == "" then
        (.badRequest
          "Invalid GitHub repository URL. Format should be: https://github.com/owner/repo",
          st, 0)
      else
        match getRepositoryByFullName st (owner ++ "/" ++ repo) with
        | some existingRepo => (.okRepo existingRepo, st, 0)
        | none =>
          match fetchRepositoryData env p owner repo with
          | (.error e, n) => (mapAxiosFailure e, st, n)
          | (.ok repoData, n) =>
            let saved := createRepository st repoData
            (.okRepo saved.1, saved.2, n)
    | _ =>
      (.badRequest
        "Invalid GitHub repository URL. Format should be: https://github.com/owner/repo",
        st, 0)

/-- Completion-provider message. -/
structure ORMessage where
  content : String
deriving DecidableEq

/-- Completion-provider choice. -/
structure ORChoice where
  message : ORMessage
deriving DecidableEq

/-- Completion-provider response body. -/
structure ORResponse where
  choices : List ORChoice
deriving DecidableEq

/-- Network outcome of the completion call: a success body, an axios error
carrying a response (its data.error field and the error message), or a
transport failure without a response. -/
inductive ORNetOutcome where
  | ok (resp : ORResponse)
  | httpErr (dataError : Option String) (message : String)
  | transportErr
deriving DecidableEq

/-- Result of the try block of analyzeCode, before the catch clause runs. -/
inductive ORTryError where
  | fromNet (dataError : Option String) (message : String)
  | transport
  | emptyChoices
deriving DecidableEq

/-- Try block of analyzeCode: on a successful response take the first
choice's text, or throw the Error("No response from OpenRouter API") when
the choices list is empty; network failures propagate into the catch. -/
def analyzeCodeTry : ORNetOutcome → Except ORTryError String
  | .ok resp =>
    match resp.choices with
    | choice :: _ => .ok choice.message.content
    | [] => .error .emptyChoices
  | .httpErr dataError message => .error (.fromNet dataError message)
  | .transportErr => .error .transport

/-- Embedding of analyzeCode (openrouter.ts); thrown Errors are modelled by
their message strings. The missing-credential throw happens before the try
block. Inside the catch clause only axios errors carrying a response keep
their payload; every other caught error - including the empty-choices Error
thrown inside the try block itself - is rethrown as the generic message. -/
def analyzeCode (apiKey : Option String) (net : ORNetOutcome) : Except String String :=
  if jsFalsy apiKey then .error "OpenRouter API key is not configured"
  else
    match analyzeCodeTry net with
    | .ok s => .ok s
    | .error (.fromNet dataError message) =>
      .error ("OpenRouter API error: " ++ jsOr dataError message)
    | .error .transport => .error "Failed to analyze code with OpenRouter"
    | .error .emptyChoices => .error "Failed to analyze code with OpenRouter"

/-- Thrown JavaScript runtime error (TypeError on a null/undefined method
call), as produced by generateReadmeContent's toLowerCase calls. -/
inductive JsError where
  | typeError
deriving DecidableEq

/-- Custom README section of the options object. -/
structure CustomSection where
  title : String
  content : String
deriving DecidableEq

/-- Options object of generateReadmeContent, after the destructuring
defaults are applied. -/
structure ReadmeOptions where
  includeInstallation : Bool
  includeUsage : Bool
  includeContributing : Bool
  includeLicense : Bool
  customSections : List CustomSection
deriving DecidableEq

/-- Badge line of the generated README. -/
def badgesLine (fullName : String) : String :=
  "![GitHub stars](https://img.shields.io/github/stars/" ++ fullName ++ "?style=social) " ++
    "![License](https://img.shields.io/github/license/" ++ fullName ++ ") " ++
    "![Last commit](https://img.shields.io/github/last-commit/" ++ fullName ++ ")\n\n"

/-- One language bullet of the generated README. -/
def renderLangLine (l : LangEntry) : String :=
  "- " ++ l.name ++ ": " ++ toFixed1 l.percentage ++ "%\n"

/-- Languages section body, appended language by language as in the code's
forEach. -/
def langListOf (langs : List LangEntry) : String :=
  langs.foldl (fun acc l => acc ++ renderLangLine l) ""

/-- Heading, description, badges, overview and languages sections of the
generated README (everything before the conditional sections). -/
def headPart (r : Repository) (desc : String) (repoName : Option String) : String :=
  "# " ++ jsUndef repoName ++ "\n\n" ++ desc ++ "\n\n" ++ badgesLine r.fullName ++
    "## Overview\n\n" ++
    "This repository contains a " ++ jsNull r.language ++ " project that " ++
    jsToLower desc ++ ".\n\n" ++
    "## Languages\n\n" ++ langListOf r.languages ++ "\n"

/-- Package-manager command of the installation block, chosen by language. -/
def installCmd (r : Repository) : String :=
  if r.language == some "JavaScript" || r.language == some "TypeScript" then "npm install\n"
  else if r.language == some "Python" then "pip install -r requirements.txt\n"
  else if r.language == some "Java" then "mvn install\n"
  else "# Install dependencies according to your package manager\n"

/-- Installation section of the generated README. -/
def installStr (r : Repository) (repoName : Option String) : String :=
  "## Installation\n\n" ++ "\x60\x60\x60bash\n" ++ "# Clone the repository\n" ++
    "git clone https://github.com/" ++ r.fullName ++ ".git\n\n" ++
    "# Change directory\n" ++ "cd " ++ jsUndef repoName ++ "\n\n" ++
    "# Install dependencies\n" ++ installCmd r ++ "\x60\x60\x60\n\n"

/-- Text of the usage section for a repo name; the branch is chosen by the
record's language exactly as in the code, with the generic placeholder for
unmapped languages. -/
def usageStrOf (r : Repository) (rn : String) : String :=
  if r.language == some "JavaScript" || r.language == some "TypeScript" then
    "## Usage\n\n" ++ "\x60\x60\x60" ++ "javascript\n" ++
      "import \x7b " ++ rn ++ " \x7d from \x27" ++ jsToLower rn ++ "\x27;\n\n" ++
      "// Initialize the component\n" ++
      "const " ++ jsToLower rn ++ " = new " ++ rn ++ "();\n" ++
      jsToLower rn ++ ".start();\n" ++ "\x60\x60\x60\n\n"
  else if r.language == some "Python" then
    "## Usage\n\n" ++ "\x60\x60\x60" ++ "python\n" ++
      "from " ++ jsToLower rn ++ " import " ++ rn ++ "\n\n" ++
      "# Initialize the component\n" ++
      jsToLower rn ++ " = " ++ rn ++ "()\n" ++
      jsToLower rn ++ ".start()\n" ++ "\x60\x60\x60\n\n"
  else if r.language == some "Java" then
    "## Usage\n\n" ++ "\x60\x60\x60" ++ "java\n" ++
      "import com.example." ++ rn ++ ";\n\n" ++
      "// Initialize the component\n" ++
      rn ++ " " ++ jsToLower rn ++ " = new " ++ rn ++ "();\n" ++
      jsToLower rn ++ ".start();\n" ++ "\x60\x60\x60\n\n"
  else
    "## Usage\n\n" ++ "\x60\x60\x60" ++ "\n// Example usage code for " ++
      rn ++ "\n" ++ "\x60\x60\x60\n\n"

/-- Usage section of the generated README; the three hard-coded language
branches call toLowerCase on repoName and therefore throw when fullName has
no second "/"-segment (repoName undefined). The generic branch only
interpolates repoName, so an undefined repoName renders as "undefined"
there. -/
def usageBlockE (r : Repository) (repoName : Option String) : Except JsError String :=
  if r.language == some "JavaScript" || r.language == some "TypeScript" ||
      r.language == some "Python" || r.language == some "Java" then
    match repoName with
    | none => .error .typeError
    | some rn => .ok (usageStrOf r rn)
  else .ok (usageStrOf r (jsUndef repoName))

/-- Contributing section of the generated README. -/
def contributingStr : String :=
  "## Contributing\n\n" ++
    "Contributions are welcome! Please feel free to submit a Pull Request.\n\n" ++
    "1. Fork the repository\n" ++
    "2. Create your feature branch (\x60git checkout -b feature/amazing-feature\x60)\n" ++
    "3. Commit your changes (\x60git commit -m \x27Add some amazing feature\x27\x60)\n" ++
    "4. Push to the branch (\x60git push origin feature/amazing-feature\x60)\n" ++
    "5. Open a Pull Request\n\n"

/-- License section of the generated README. -/
def licenseStr : String :=
  "## License\n\n" ++
    "This project is licensed under the MIT License - see the LICENSE file for details.\n\n"

/-- Rendering of one custom section: emitted only when both the title and
the content are truthy (non-empty). -/
def renderCustomSection (s : CustomSection) : String :=
  if s.title != "" && s.content != "" then
    "## " ++ s.title ++ "\n\n" ++ s.content ++ "\n\n"
  else ""

/-- Custom sections, appended in list order as in the code's forEach. -/
def customFold (sections : List CustomSection) : String :=
  sections.foldl (fun acc s => acc ++ renderCustomSection s) ""

/-- Generated-by footer with the current date. -/
def footerStr (today : String) : String :=
  "---\n\n" ++ "Generated by GitHub Repository Analyzer on " ++ today ++ "\n"

/-- Embedding of generateReadmeContent (routes.ts); `today` is the
toLocaleDateString rendering of the current date. The JavaScript crash
points are the two toLowerCase calls: on a null description (overview
sentence) and on an undefined repoName (hard-coded-language usage blocks). -/
def generateReadmeContent (today : String) (r : Repository) (o : ReadmeOptions) :
    Except JsError String :=
  let repoName := ((splitOnChar '/' r.fullName.data).get? 1).map String.mk
  match r.description with
  | none => .error .typeError
  | some desc =>
    match (if o.includeUsage then usageBlockE r repoName else .ok "") with
    | .error e => .error e
    | .ok usagePart =>
      .ok (headPart r desc repoName ++
        (if o.includeInstallation then installStr r repoName else "") ++
        usagePart ++
        (if o.includeContributing then contributingStr else "") ++
        (if o.includeLicense then licenseStr else "") ++
        customFold o.customSections ++ footerStr today)

/-- Standard sections of a successfully generated document, for a record
whose present description is `desc` and whose second fullName segment is
`rn`: heading block, then the conditional installation, usage, contributing
and license sections. -/
def stdSections (r : Repository) (o : ReadmeOptions) (desc rn : String) : String :=
  headPart r desc (some rn) ++
    (if o.includeInstallation then installStr r (some rn) else "") ++
    (if o.includeUsage then usageStrOf r rn else "") ++
    (if o.includeContributing then contributingStr else "") ++
    (if o.includeLicense then licenseStr else "")

/-- Entry of the provider's recursive tree listing. -/
structure TreeItem where
  type : String
  path : String
deriving DecidableEq

/-- Allow-listed code extensions of the whole-repository sampler. -/
def importantFileExtensions : List String :=
  [".js", ".ts", ".jsx", ".tsx", ".py", ".java", ".php", ".go", ".rb", ".c", ".cpp"]

/-- Case-insensitive match of the minified/bundle/compiled filename pattern. -/
def matchesMinified (path : String) : Bool :=
  jsIncludes (jsToLower path) ".min." || jsIncludes (jsToLower path) ".bundle." ||
    jsIncludes (jsToLower path) ".compiled."

/-- Filter of the whole-repository sampler: a blob with an allow-listed
extension, outside the vendor directories, not matching the minified
pattern. -/
def qualifiesCodeFile (item : TreeItem) : Bool :=
  item.type == "blob" &&
    importantFileExtensions.any (fun ext => jsEndsWith item.path ext) &&
    !(jsIncludes item.path "node_modules/") &&
    !(jsIncludes item.path "vendor/") &&
    !(matchesMinified item.path)

/-- Sampled files: the first (at most) five qualifying tree entries. -/
def sampleCodeFiles (tree : List TreeItem) : List TreeItem :=
  (tree.filter qualifiesCodeFile).take 5

/-- Truncation of a sampled file: the first 1000 characters, with the
ellipsis marker exactly when the content was longer. -/
def truncateContent (content : String) : String :=
  String.mk (content.data.take 1000) ++ (if content.data.length > 1000 then "..." else "")

/-- Markdown block the sampler appends for one fetched file. -/
def fileBlock (path content : String) : String :=
  "\nFile: " ++ path ++ "\n\x60\x60\x60\n" ++ truncateContent content ++ "\n\x60\x60\x60\n"

/-- Fetch loop of the sampler: append the block for every file whose fetch
succeeds; a failed fetch leaves the accumulator unchanged and continues with
the remaining files. -/
def buildSampleCode (fetchFile : String → Except Unit String) (files : List TreeItem) : String :=
  files.foldl (fun acc f =>
    match fetchFile f.path with
    | .ok content => acc ++ fileBlock f.path content
    | .error _ => acc) ""

/-- Concrete environment used by the evaluation witnesses. -/
def demoEnv : JsEnv :=
  { nowMs := 0, tzOffsetSec := 0, formatLongDate := fun _ => "January 1, 1970",
    randQuality := 80, randCoverage := 70, randContributors := 100 }

/-- Concrete provider repository payload used by the evaluation witnesses. -/
def demoInfo : RepoInfo :=
  { id := 1, full_name := "alice/proj", description := some "Demo project",
    language := some "TypeScript", avatar_url := "https://avatars.example/u/1",
    stargazers_count := 0, forks_count := 0, open_issues_count := 0,
    created_at := 0, updated_at := 0 }

/-- Concrete record with an absent (null) description. -/
def demoBadRecord : Repository :=
  { id := "1", fullName := "alice/proj", description := none, ownerAvatar := none,
    stars := none, forks := none, openIssues := none, language := some "TypeScript",
    createdAt := none, lastUpdated := none, codeQuality := none, codeCoverage := none,
    commitFrequency := none, activeContributors := none, languages := [],
    commitActivity := [], complexFiles := [], dependencies := [] }

/-- Concrete language entry used by the evaluation witnesses. -/
def demoLangEntry : LangEntry := { name := "TypeScript", percentage := 100, color := "#3178c6" }

/-- Concrete record on which generation succeeds. -/
def demoOkRecord : Repository :=
  { id := "1", fullName := "alice/proj", description := some "Demo project",
    ownerAvatar := none, stars := none, forks := none, openIssues := none,
    language := some "TypeScript", createdAt := none, lastUpdated := none,
    codeQuality := none, codeCoverage := none, commitFrequency := none,
    activeContributors := none, languages := [demoLangEntry], commitActivity := [],
    complexFiles := [], dependencies := [] }

/-- Readme options with every section enabled and no custom sections. -/
def demoAllOptions : ReadmeOptions :=
  { includeInstallation := true, includeUsage := true, includeContributing := true,
    includeLicense := true, customSections := [] }

/-- Clean-lines predicate on strings for the Installation heading. -/
abbrev LinesOkStr (s : String) : Prop := LinesOk installHeadingLine s.data

/-- Options for the C8 witness: no installation section, one custom Notes
section. -/
def demoC8Options : ReadmeOptions :=
  { includeInstallation := false, includeUsage := true, includeContributing := true,
    includeLicense := true, customSections := [{ title := "Notes", content := "x" }] }

/-- Concrete provider responses used by the evaluation witnesses. -/
def demoProvider : GitHubProvider :=
  { repoInfo := .ok demoInfo, languagesBody := .ok [],
    commitBody := .ok (CommitPayload.arr []) }

/-- Failing provider, used to show the cached path issues no calls. -/
def demoFailProvider : GitHubProvider :=
  { repoInfo := .error .netErr, languagesBody := .error .netErr,
    commitBody := .error .netErr }

/-- URL used by the evaluation witnesses. -/
def demoUrl : String := "https://github.com/alice/proj"

/-- Record the demo ingestion produces. -/
def demoRecord : Repository :=
  match (fetchRepositoryData demoEnv demoProvider "alice" "proj").1 with
  | .ok r => r
  | .error _ => demoBadRecord

/-- Concrete tree for the sampler witness. -/
def demoTree : List TreeItem :=
  [{ type := "blob", path := "a.ts" }, { type := "blob", path := "node_modules/x.js" },
   { type := "blob", path := "b.MIN.js" }, { type := "tree", path := "c.ts" },
   { type := "blob", path := "d.Bundle.ts" }, { type := "blob", path := "e.py" }]

/-- Concrete per-file fetch that fails on one path. -/
def demoFetchFile : String → Except Unit String :=
  fun p => if p == "a.ts" then .error () else .ok "let x = 1"

theorem strData_append (a b : String) : (a ++ b).data = a.data ++ b.data := by
  cases a; cases b; rfl

theorem strData_inj {a b : String} (h : a.data = b.data) : a = b := by
  cases a; cases b; exact congrArg String.mk h

theorem intStr_natCast (n : Nat) : intStr (n : Int) = natStr n := by
  unfold intStr
  rw [if_neg (by omega)]
  simp [Int.natAbs_ofNat]

theorem fdiv_natCast (a b : Nat) : ((a : Int)).fdiv ((b : Int)) = ((a / b : Nat) : Int) :=
  (Int.ofNat_fdiv a b).symm

theorem strAppend_assoc (a b c : String) : a ++ b ++ c = a ++ (b ++ c) := by
  apply strData_inj; simp [strData_append]

theorem pluralS_eq {m : Nat} (h : 1 ≤ m) :
    (if m > 1 then "s" else "") = (if m ≠ 1 then "s" else "") := by
  rcases Nat.lt_or_ge m 2 with h2 | h2
  · have hm : m = 1 := by omega
    subst hm; simp
  · rw [if_pos (by omega), if_pos (by omega)]

theorem getRelativeTimeString_natElapsed (s : Nat) :
    getRelativeTimeString (1000 * (s : Int)) 0 = relTimeNat s := by
  have e0 : (1000 * (s : Int) - 0).fdiv 1000 = (s : Int) := by
    have h1 : (1000 * (s : Int) - 0) = ((1000 * s : Nat) : Int) := by push_cast; ring
    rw [h1, show ((1000 : Int)) = ((1000 : Nat) : Int) by norm_cast, fdiv_natCast]
    have h2 : 1000 * s / 1000 = s := by omega
    rw [h2]
  have c60 : ((60 : Nat) : Int) = (60 : Int) := by norm_cast
  have c24 : ((24 : Nat) : Int) = (24 : Int) := by norm_cast
  have c30 : ((30 : Nat) : Int) = (30 : Int) := by norm_cast
  have c12 : ((12 : Nat) : Int) = (12 : Int) := by norm_cast
  simp only [getRelativeTimeString, relTimeNat, e0, ← c60, ← c24, ← c30, ← c12,
    fdiv_natCast, intStr_natCast, Nat.cast_lt, gt_iff_lt, Nat.one_lt_cast]

theorem relTimeNat_eq_spec (s : Nat) : relTimeNat s = relativeTimeSpecWorded s := by
  unfold relTimeNat relativeTimeSpecWorded pluralUnit
  by_cases h1 : s < 60
  · rw [if_pos h1, if_pos h1]
  rw [if_neg h1, if_neg h1]
  by_cases h2 : s < 3600
  · rw [if_pos (by omega), if_pos h2, pluralS_eq (show 1 ≤ s / 60 by omega),
      strAppend_assoc (natStr (s / 60)) " " "minute",
      show (" " ++ "minute" : String) = " minute" from rfl]
  rw [if_neg (by omega), if_neg h2]
  by_cases h3 : s < 86400
  · have hv : s / 60 / 60 = s / 3600 := by omega
    rw [if_pos (by omega), if_pos h3, hv, pluralS_eq (show 1 ≤ s / 3600 by omega),
      strAppend_assoc (natStr (s / 3600)) " " "hour",
      show (" " ++ "hour" : String) = " hour" from rfl]
  rw [if_neg (by omega), if_neg h3]
  by_cases h4 : s < 30 * 86400
  · have hv : s / 60 / 60 / 24 = s / 86400 := by omega
    rw [if_pos (by omega), if_pos h4, hv, pluralS_eq (show 1 ≤ s / 86400 by omega),
      strAppend_assoc (natStr (s / 86400)) " " "day",
      show (" " ++ "day" : String) = " day" from rfl]
  rw [if_neg (by omega), if_neg h4]
  have hv : s / 60 / 60 / 24 / 30 = s / 86400 / 30 := by omega
  by_cases h5 : s / 86400 / 30 < 12
  · rw [if_pos (by omega), if_pos h5, hv, pluralS_eq (show 1 ≤ s / 86400 / 30 by omega),
      strAppend_assoc (natStr (s / 86400 / 30)) " " "month",
      show (" " ++ "month" : String) = " month" from rfl]
  rw [if_neg (by omega), if_neg h5, hv, pluralS_eq (show 1 ≤ s / 86400 / 30 / 12 by omega),
    strAppend_assoc (natStr (s / 86400 / 30 / 12)) " " "year",
    show (" " ++ "year" : String) = " year" from rfl]

/-- Claim C4: for every non-negative elapsed-seconds value, the code's
relative-time function produces exactly the specification's wording
("just now" below 60s, then minutes/hours/days/months/years by the stated
floor divisions and thresholds, plural "s" exactly when the value is not 1),
including the listed boundary cases. -/
theorem c4_relative_time_matches_spec :
    (∀ s : Nat, getRelativeTimeString (1000 * (s : Int)) 0 = relativeTimeSpecWorded s)
    ∧ getRelativeTimeString (1000 * 59) 0 = "just now"
    ∧ getRelativeTimeString (1000 * 60) 0 = "1 minute ago"
    ∧ getRelativeTimeString (1000 * 3599) 0 = "59 minutes ago"
    ∧ getRelativeTimeString (1000 * 3600) 0 = "1 hour ago"
    ∧ getRelativeTimeString (1000 * 86399) 0 = "23 hours ago" := by
  refine ⟨fun s => (getRelativeTimeString_natElapsed s).trans (relTimeNat_eq_spec s),
    by decide, by decide, by decide, by decide, by decide⟩

theorem splitOnChar_ne_nil (sep : Char) (l : List Char) : splitOnChar sep l ≠ [] := by
  induction l with
  | nil => simp [splitOnChar]
  | cons c t ih =>
    simp only [splitOnChar]
    split
    · simp
    · cases h : splitOnChar sep t with
      | nil => simp [consHead]
      | cons a r => simp [consHead]

theorem headD2_cons_tail {l : List (List Char)} (h : l ≠ []) : headD2 l :: l.tail = l := by
  cases l with
  | nil => exact absurd rfl h
  | cons a t => rfl

theorem lastD_cons {a : List Char} {l : List (List Char)} (h : l ≠ []) :
    lastD (a :: l) = lastD l := by
  cases l with
  | nil => exact absurd rfl h
  | cons b t => rfl

theorem lastD_append_right {l r : List (List Char)} (h : r ≠ []) :
    lastD (l ++ r) = lastD r := by
  induction l with
  | nil => rfl
  | cons a t ih =>
    have ht : t ++ r ≠ [] := fun hc => h (List.append_eq_nil.mp hc).2
    rw [List.cons_append, lastD_cons ht, ih]

theorem lastD_mem {l : List (List Char)} (h : l ≠ []) : lastD l ∈ l := by
  induction l with
  | nil => exact absurd rfl h
  | cons a t ih =>
    cases t with
    | nil => simp [lastD]
    | cons b r =>
      rw [lastD_cons (by simp)]
      exact List.mem_cons_of_mem _ (ih (by simp))

theorem mem_of_mem_dropLast {x : List Char} {l : List (List Char)} (h : x ∈ l.dropLast) :
    x ∈ l :=
  List.Sublist.mem h (List.dropLast_sublist l)

theorem splitOnChar_append (sep : Char) (a b : List Char) :
    splitOnChar sep (a ++ b) =
      (splitOnChar sep a).dropLast ++
        (lastD (splitOnChar sep a) ++ headD2 (splitOnChar sep b)) :: (splitOnChar sep b).tail := by
  induction a with
  | nil =>
    rw [show splitOnChar sep ([] : List Char) = [[]] from rfl]
    rw [show (([[]] : List (List Char))).dropLast = [] from rfl,
      show lastD [[]] = [] from rfl, List.nil_append, List.nil_append, List.nil_append]
    exact (headD2_cons_tail (splitOnChar_ne_nil sep b)).symm
  | cons c t ih =>
    by_cases hc : c = sep
    · rw [show splitOnChar sep ((c :: t) ++ b) = [] :: splitOnChar sep (t ++ b) by
        simp [splitOnChar, hc]]
      rw [show splitOnChar sep (c :: t) = [] :: splitOnChar sep t by simp [splitOnChar, hc]]
      rw [ih]
      cases hTe : splitOnChar sep t with
      | nil => exact absurd hTe (splitOnChar_ne_nil sep t)
      | cons x r =>
        rw [show (([] :: x :: r : List (List Char))).dropLast = [] :: (x :: r).dropLast from rfl]
        rw [show lastD ([] :: x :: r) = lastD (x :: r) from rfl, List.cons_append]
    · rw [show splitOnChar sep ((c :: t) ++ b) = consHead c (splitOnChar sep (t ++ b)) by
        simp [splitOnChar, hc]]
      rw [show splitOnChar sep (c :: t) = consHead c (splitOnChar sep t) by
        simp [splitOnChar, hc]]
      rw [ih]
      cases hTe : splitOnChar sep t with
      | nil => exact absurd hTe (splitOnChar_ne_nil sep t)
      | cons x r =>
        cases r with
        | nil =>
          rw [show (([x] : List (List Char))).dropLast = [] from rfl, List.nil_append,
            show lastD [x] = x from rfl]
          rw [show consHead c ((x ++ headD2 (splitOnChar sep b)) :: (splitOnChar sep b).tail)
              = (c :: (x ++ headD2 (splitOnChar sep b))) :: (splitOnChar sep b).tail from rfl]
          rw [show consHead c [x] = [c :: x] from rfl]
          rw [show (([c :: x] : List (List Char))).dropLast = [] from rfl, List.nil_append,
            show lastD [c :: x] = c :: x from rfl, List.cons_append]
        | cons y r2 =>
          rw [show (x :: y :: r2 : List (List Char)).dropLast = x :: (y :: r2).dropLast from rfl]
          rw [show lastD (x :: y :: r2) = lastD (y :: r2) from rfl]
          rw [show consHead c (x :: y :: r2) = (c :: x) :: y :: r2 from rfl]
          rw [show ((c :: x) :: y :: r2 : List (List Char)).dropLast
              = (c :: x) :: (y :: r2).dropLast from rfl]
          rw [show lastD ((c :: x) :: y :: r2) = lastD (y :: r2) from rfl]
          rw [List.cons_append, List.cons_append]
          rfl

theorem lineSplit_append (a b : List Char) :
    lineSplit (a ++ b) =
      (lineSplit a).dropLast ++
        (lastD (lineSplit a) ++ headD2 (lineSplit b)) :: (lineSplit b).tail :=
  splitOnChar_append '\n' a b

theorem lineSplit_ne_nil (l : List Char) : lineSplit l ≠ [] := splitOnChar_ne_nil '\n' l

theorem linesOk_append {pat a b : List Char} (ha : LinesOk pat a) (hb : LinesOk pat b) :
    LinesOk pat (a ++ b) := by
  have he := lineSplit_append a b
  rw [ha.2, List.nil_append, headD2_cons_tail (lineSplit_ne_nil b)] at he
  constructor
  · rw [he]
    intro hmem
    rcases List.mem_append.mp hmem with h1 | h2
    · exact ha.1 (mem_of_mem_dropLast h1)
    · exact hb.1 h2
  · rw [he, lastD_append_right (lineSplit_ne_nil b)]
    exact hb.2

theorem linesOk_chunk {pat c : List Char} (hne : pat ≠ []) (h : pat ∉ lineSplit c) :
    LinesOk pat (c ++ ['\n']) := by
  have he := lineSplit_append c ['\n']
  rw [show lineSplit (['\n'] : List Char) = [[], []] from rfl] at he
  rw [show headD2 [[], []] = [] from rfl, show (([[], []] : List (List Char))).tail = [[]] from rfl,
    List.append_nil] at he
  constructor
  · rw [he]
    intro hm
    rcases List.mem_append.mp hm with h1 | h2
    · exact h (mem_of_mem_dropLast h1)
    · rcases List.mem_cons.mp h2 with h3 | h4
      · subst h3; exact h (lastD_mem (lineSplit_ne_nil c))
      · rw [List.mem_singleton] at h4; exact hne h4
  · rw [he, lastD_append_right (by simp), lastD_cons (by simp)]
    rfl

theorem splitOnChar_no_sep {sep : Char} {l : List Char} (h : sep ∉ l) :
    splitOnChar sep l = [l] := by
  induction l with
  | nil => rfl
  | cons c t ih =>
    have hcs : ¬c = sep := by
      intro hc
      subst hc
      exact h (List.mem_cons_self c t)
    rw [show splitOnChar sep (c :: t) = if c = sep then [] :: splitOnChar sep t
        else consHead c (splitOnChar sep t) from rfl]
    rw [if_neg hcs]
    rw [ih (fun hm => h (List.mem_cons_of_mem _ hm))]
    rfl

theorem lineSplit_no_nl {l : List Char} (h : '\n' ∉ l) : lineSplit l = [l] :=
  splitOnChar_no_sep h

theorem linesOk_single {pat c : List Char} (hne : pat ≠ []) (hnl : '\n' ∉ c) (hp : c ≠ pat) :
    LinesOk pat (c ++ ['\n']) := by
  apply linesOk_chunk hne
  rw [lineSplit_no_nl hnl]
  intro hm
  rw [List.mem_singleton] at hm
  exact hp hm.symm

theorem linesOk_empty {pat : List Char} (hne : pat ≠ []) : LinesOk pat [] := by
  constructor
  · intro hm
    rw [show lineSplit [] = [[]] from rfl, List.mem_singleton] at hm
    exact hne hm
  · rfl

theorem ne_installLine_of_noHash {l : List Char} (h : '#' ∉ l) : l ≠ installHeadingLine :=
  fun he => h (by rw [he]; decide)

theorem toLower_fixed_low {c t : Char} (ht : t.toNat < 65) (h : Char.toLower c = t) : c = t := by
  unfold Char.toLower at h
  simp only [] at h
  split at h
  · exfalso
    rename Char.toNat c ≥ 65 ∧ Char.toNat c ≤ 90 => hc
    have h2 := congrArg Char.toNat h
    have hm : 97 ≤ Char.toNat c + 32 ∧ Char.toNat c + 32 ≤ 122 := by omega
    have h3 : (Char.ofNat (Char.toNat c + 32)).toNat = Char.toNat c + 32 := by
      set m := Char.toNat c + 32 with hdef
      clear_value m
      obtain ⟨hm1, hm2⟩ := hm
      interval_cases m <;> decide
    rw [h3] at h2
    omega
  · exact h

theorem toLower_map_not_mem {l : List Char} {t : Char} (ht : t.toNat < 65) (h : t ∉ l) :
    t ∉ l.map Char.toLower := by
  intro hm
  rcases List.mem_map.mp hm with ⟨a, ha, he⟩
  rw [toLower_fixed_low ht he] at ha
  exact h ha

theorem digitChar_mem_digits (d : Nat) : digitChar d ∈ digitChars := by
  rcases Nat.lt_or_ge d 9 with h | h
  · interval_cases d <;> decide
  · obtain ⟨e, rfl⟩ : ∃ e, d = e + 9 := ⟨d - 9, by omega⟩
    rw [show digitChar (e + 9) = '9' from rfl]
    decide

theorem natCharsAux_subset (fuel : Nat) : ∀ (n : Nat), ∀ c ∈ natCharsAux fuel n, c ∈ digitChars := by
  induction fuel with
  | zero => intro n c hc; simp [natCharsAux] at hc
  | succ f ih =>
    intro n c hc
    simp only [natCharsAux] at hc
    split at hc
    · rw [List.mem_singleton] at hc; subst hc; exact digitChar_mem_digits n
    · rcases List.mem_append.mp hc with h1 | h2
      · exact ih (n / 10) c h1
      · rw [List.mem_singleton] at h2; subst h2; exact digitChar_mem_digits (n % 10)

theorem natStr_subset (n : Nat) : ∀ c ∈ (natStr n).data, c ∈ digitChars :=
  natCharsAux_subset (n + 1) n

theorem not_mem_natStr {ch : Char} (h : ch ∉ digitChars) (n : Nat) : ch ∉ (natStr n).data :=
  fun hm => h (natStr_subset n ch hm)

theorem not_mem_toFixed1Core {ch : Char} (h0 : ch ∉ digitChars) (h1 : ch ≠ '.') (k : Nat) :
    ch ∉ (toFixed1Core k).data := by
  unfold toFixed1Core
  rw [strData_append, strData_append]
  intro hm
  rcases List.mem_append.mp hm with h2 | h3
  · rcases List.mem_append.mp h2 with h4 | h5
    · exact not_mem_natStr h0 _ h4
    · rw [show ("." : String).data = ['.'] from rfl, List.mem_singleton] at h5
      exact h1 h5
  · exact not_mem_natStr h0 _ h3

theorem not_mem_toFixed1 {ch : Char} (h0 : ch ∉ digitChars) (h1 : ch ≠ '.') (h2 : ch ≠ '-')
    (q : ℚ) : ch ∉ (toFixed1 q).data := by
  unfold toFixed1
  split
  · rw [strData_append]
    intro hm
    rcases List.mem_append.mp hm with h3 | h4
    · rw [show ("-" : String).data = ['-'] from rfl, List.mem_singleton] at h3
      exact h2 h3
    · exact not_mem_toFixed1Core h0 h1 _ h4
  · exact not_mem_toFixed1Core h0 h1 _

/-- Claim C2 evidence: with a configured key, a completion response whose
choices list is empty makes analyzeCode fail with the generic
"Failed to analyze code with OpenRouter" error; moreover the distinct
"No response from OpenRouter API" error thrown inside the try block is
swallowed by the catch clause and can never escape analyzeCode on any
input, so the empty-choices case is not distinguishable from an
unclassified failure. -/
theorem c2_empty_choices_generic_error :
    analyzeCode (some "key") (ORNetOutcome.ok ⟨[]⟩) =
      .error "Failed to analyze code with OpenRouter"
    ∧ ∀ (apiKey : Option String) (net : ORNetOutcome),
        analyzeCode apiKey net ≠ .error "No response from OpenRouter API" := by
  refine ⟨rfl, ?_⟩
  intro apiKey net h
  unfold analyzeCode at h
  split at h
  · injection h with hmsg
    exact absurd hmsg (by decide)
  · cases hx : analyzeCodeTry net with
    | ok s => rw [hx] at h; exact Except.noConfusion h
    | error e =>
      cases e with
      | fromNet dataError message =>
        rw [hx] at h
        injection h with hmsg
        have h2 := congrArg (fun s : String => s.data.head?) hmsg
        simp only [] at h2
        have h3 : ("OpenRouter API error: " ++ jsOr dataError message).data.head?
            = some 'O' := by
          rw [strData_append,
            show ("OpenRouter API error: " : String).data
              = 'O' :: ("penRouter API error: " : String).data from rfl,
            List.cons_append]
          rfl
        rw [h3] at h2
        exact absurd h2 (by decide)
      | transport =>
        rw [hx] at h
        injection h with hmsg
        exact absurd hmsg (by decide)
      | emptyChoices =>
        rw [hx] at h
        injection h with hmsg
        exact absurd hmsg (by decide)

/-- Claim C1 counterexample: when the provider returns an empty array of
weekly buckets, the produced record's commitActivity has 0 entries, not the
7 the claim asserts. -/
theorem c1_counterexample_empty_array :
    (fetchRepositoryData demoEnv
        ⟨.ok demoInfo, .ok [], .ok (CommitPayload.arr [])⟩ "alice" "proj").1.map
      (fun r => r.commitActivity.length) = .ok 0
    ∧ (0 : Nat) ≠ 7 := by
  exact ⟨rfl, by decide⟩

/-- Claim C1 amended: commitActivity has min(n, 7) entries when the provider
returns an array of n weekly buckets (0 for an empty array; a falsy body is
coerced to the empty array first), and exactly 7 synthesized entries - all
with count 0 - only when the body is a truthy non-array value. -/
theorem c1_commit_activity_length (env : JsEnv) (info : RepoInfo)
    (langs : List (String × Nat)) (payload : CommitPayload) (owner repo : String) :
    (fetchRepositoryData env ⟨.ok info, .ok langs, .ok payload⟩ owner repo).1.map
      (fun r => r.commitActivity.length) =
      .ok (match payload with
        | .arr ws => min ws.length 7
        | .nonArrayTruthy => 7
        | .falsy => 0)
    ∧ ∀ b ∈ commitActivityOf env CommitPayload.nonArrayTruthy, b.count = 0 := by
  constructor
  · show Except.map _ (Except.ok _) = _
    rw [Except.map]
    cases payload with
    | arr ws =>
      simp only [commitActivityOf, coerceCommitData, takeRight, List.length_map,
        List.length_drop]
      rw [show (min ws.length 7) = ws.length - (ws.length - 7) by omega]
    | nonArrayTruthy => rfl
    | falsy => rfl
  · intro b hb
    simp only [commitActivityOf, coerceCommitData, List.mem_map] at hb
    obtain ⟨i, _, he⟩ := hb
    rw [← he]

theorem ifDenom_eq_max (t : Nat) :
    (if t = 0 then (1 : ℚ) else (t : ℚ)) = ((max t 1 : Nat) : ℚ) := by
  cases t with
  | zero => simp
  | succ n => simp [Nat.max_eq_left (by omega : 1 ≤ n + 1)]

theorem sum_div_mul (l : List (String × Nat)) (D : ℚ) :
    (l.map fun e => (e.2 : ℚ) / D * 100).sum = (l.map fun e => (e.2 : ℚ)).sum / D * 100 := by
  induction l with
  | nil => simp
  | cons x t ih =>
    simp only [List.map_cons, List.sum_cons, ih]
    ring

theorem natCast_sum_bytes (l : List (String × Nat)) :
    (l.map fun e => (e.2 : ℚ)).sum = (((l.map fun e => e.2).sum : Nat) : ℚ) := by
  induction l with
  | nil => simp
  | cons x t ih => simp [ih]

/-- Claim C5: every computed language percentage equals
bytes / max(totalBytes, 1) * 100 and is non-negative (percentages live in ℚ,
so they are finite); when totalBytes > 0 the percentages sum to exactly 100;
an empty byte map yields the empty list, whose percentage sum is 0, with the
division guarded by the `|| 1` denominator. -/
theorem c5_language_percentages (langsData : List (String × Nat)) :
    languagesOf langsData =
      langsData.map (fun entry =>
        { name := entry.1,
          percentage :=
            (entry.2 : ℚ) / ((max ((langsData.map fun e => e.2).sum) 1 : Nat) : ℚ) * 100,
          color := colorOf entry.1 })
    ∧ (∀ l ∈ languagesOf langsData, 0 ≤ l.percentage)
    ∧ (0 < (langsData.map fun e => e.2).sum →
        ((languagesOf langsData).map fun l => l.percentage).sum = 100)
    ∧ (langsData = [] → languagesOf langsData = []) := by
  refine ⟨?_, ?_, ?_, ?_⟩
  · simp only [languagesOf, ifDenom_eq_max]
  · intro l hl
    simp only [languagesOf, List.mem_map] at hl
    obtain ⟨e, _, he⟩ := hl
    rw [← he]
    simp only []
    apply mul_nonneg
    · apply div_nonneg (Nat.cast_nonneg _)
      split
      · norm_num
      · exact Nat.cast_nonneg _
    · norm_num
  · intro hpos
    have hne : (langsData.map fun entry => entry.2).sum ≠ 0 := by omega
    have hif : (if (langsData.map fun entry => entry.2).sum = 0 then (1 : ℚ)
        else (((langsData.map fun entry => entry.2).sum : Nat) : ℚ))
        = (((langsData.map fun entry => entry.2).sum : Nat) : ℚ) := if_neg hne
    simp only [languagesOf, hif, List.map_map]
    have hcomp : ((fun l : LangEntry => l.percentage) ∘ fun entry : String × Nat =>
        ({ name := entry.1,
           percentage := (entry.2 : ℚ) /
             ((((langsData.map fun entry => entry.2).sum : Nat)) : ℚ) * 100,
           color := colorOf entry.1 } : LangEntry)) =
        fun entry : String × Nat => (entry.2 : ℚ) /
          ((((langsData.map fun entry => entry.2).sum : Nat)) : ℚ) * 100 := rfl
    rw [hcomp, sum_div_mul, natCast_sum_bytes]
    rw [div_self (by exact_mod_cast hne)]
    norm_num
  · intro he
    subst he
    rfl

/-- Claim C9: owner/name extraction is invariant under adding a trailing
slash to a URL that has none, and the /api/analyze handler answers with a
400 invalid-URL error - issuing no provider calls and leaving the cache
unchanged - whenever an extracted segment is empty or missing, or the URL
does not reference the expected host (or fails the URL-format check). -/
theorem c9_url_extraction :
    (∀ url : String, url.data.getLast? ≠ some '/' →
      extractOwnerRepo (url ++ "/") = extractOwnerRepo url)
    ∧ (∀ (env : JsEnv) (p : GitHubProvider) (urlOk : Bool) (url : String) (st : Storage),
        jsIncludes url "github.com" = false ∨ jsFalsy (extractOwnerRepo url).1 = true ∨
          jsFalsy (extractOwnerRepo url).2 = true →
        ∃ msg, analyzeHandler env p urlOk url st = (.badRequest msg, st, 0)) := by
  constructor
  · intro url hns
    have hd : (url ++ "/").data = url.data ++ ['/'] := by
      rw [strData_append]
    have h1 : stripOneTrailingSlash ((url ++ "/").data) = url.data := by
      rw [hd]
      unfold stripOneTrailingSlash
      rw [if_pos (List.getLast?_concat _), List.dropLast_concat]
    have h2 : stripOneTrailingSlash url.data = url.data := by
      unfold stripOneTrailingSlash
      rw [if_neg hns]
    unfold extractOwnerRepo
    rw [h1, h2]
  · intro env p urlOk url st h
    by_cases hok : urlOk
    case neg =>
      refine ⟨"Invalid URL format", ?_⟩
      unfold analyzeHandler
      rw [if_pos (by simp [hok])]
    case pos =>
      by_cases hinc : jsIncludes url "github.com"
      case neg =>
        refine ⟨"URL must be a GitHub repository", ?_⟩
        unfold analyzeHandler
        rw [if_neg (by simp [hok]), if_pos (by simp [hinc])]
      case pos =>
        have hfal : jsFalsy (extractOwnerRepo url).1 = true ∨
            jsFalsy (extractOwnerRepo url).2 = true := by
          rcases h with h1 | h2 | h3
          · rw [hinc] at h1; cases h1
          · exact Or.inl h2
          · exact Or.inr h3
        refine ⟨"Invalid GitHub repository URL. Format should be: https://github.com/owner/repo",
          ?_⟩
        unfold analyzeHandler
        rw [if_neg (by simp [hok]), if_neg (by simp [hinc])]
        rcases hex : extractOwnerRepo url with ⟨o?, r?⟩
        rw [hex] at hfal
        cases o? with
        | none => rfl
        | some o =>
          cases r? with
          | none => rfl
          | some r =>
            simp only [jsFalsy] at hfal
            have hcond : (o == "" || r == "") = true := by
              rcases hfal with h4 | h4 <;> simp [h4]
            simp only []
            rw [if_pos hcond]

theorem strAppend_empty (s : String) : s ++ "" = s := by
  apply strData_inj
  rw [strData_append, show ("" : String).data = [] from rfl, List.append_nil]

theorem strEmpty_append (s : String) : "" ++ s = s := by
  apply strData_inj
  rw [strData_append]
  rfl

theorem buildSampleCode_acc (fetchFile : String → Except Unit String) :
    ∀ (l : List TreeItem) (acc : String),
      l.foldl (fun acc f =>
        match fetchFile f.path with
        | .ok content => acc ++ fileBlock f.path content
        | .error _ => acc) acc = acc ++ buildSampleCode fetchFile l := by
  intro l
  induction l with
  | nil =>
    intro acc
    rw [List.foldl_nil, show buildSampleCode fetchFile [] = "" from rfl, strAppend_empty]
  | cons x t ih =>
    intro acc
    rw [List.foldl_cons]
    rw [show buildSampleCode fetchFile (x :: t) = List.foldl (fun acc f =>
      match fetchFile f.path with
      | .ok content => acc ++ fileBlock f.path content
      | .error _ => acc) (match fetchFile x.path with
      | .ok content => "" ++ fileBlock x.path content
      | .error _ => "") t from rfl]
    rw [ih, ih]
    cases hfx : fetchFile x.path with
    | ok content =>
      apply strData_inj
      simp [strData_append]
    | error e =>
      apply strData_inj
      simp [strData_append]

theorem buildSampleCode_cons (fetchFile : String → Except Unit String) (x : TreeItem)
    (l : List TreeItem) :
    buildSampleCode fetchFile (x :: l) =
      (match fetchFile x.path with
        | .ok content => fileBlock x.path content
        | .error _ => "") ++ buildSampleCode fetchFile l := by
  rw [show buildSampleCode fetchFile (x :: l) = List.foldl (fun acc f =>
    match fetchFile f.path with
    | .ok content => acc ++ fileBlock f.path content
    | .error _ => acc) (match fetchFile x.path with
    | .ok content => "" ++ fileBlock x.path content
    | .error _ => "") l from rfl]
  rw [buildSampleCode_acc]
  cases hfx : fetchFile x.path with
  | ok content =>
    apply strData_inj
    simp [strData_append]
  | error e =>
    apply strData_inj
    simp [strData_append]

/-- Claim C7: whole-repository sampling selects at most 5 files, all of them
qualifying tree entries (blob, allow-listed extension, not under a vendor
directory, not matching the minified pattern); truncation keeps a content of
at most 1000 characters unchanged and otherwise cuts it to the first 1000
characters plus the "..." marker; and a failed fetch of one selected file
only drops that file's block from the assembled sample. -/
theorem c7_repository_sampler (tree : List TreeItem) :
    (sampleCodeFiles tree).length ≤ 5
    ∧ (∀ f ∈ sampleCodeFiles tree,
        f ∈ tree ∧ f.type = "blob"
        ∧ (importantFileExtensions.any fun ext => jsEndsWith f.path ext) = true
        ∧ jsIncludes f.path "node_modules/" = false
        ∧ jsIncludes f.path "vendor/" = false
        ∧ matchesMinified f.path = false)
    ∧ (∀ content : String,
        (content.data.length ≤ 1000 → truncateContent content = content)
        ∧ (content.data.length > 1000 →
            (truncateContent content).data = content.data.take 1000 ++ ['.', '.', '.']))
    ∧ (∀ (fetchFile : String → Except Unit String) (pre post : List TreeItem) (f : TreeItem),
        fetchFile f.path = .error () →
        buildSampleCode fetchFile (pre ++ f :: post) = buildSampleCode fetchFile (pre ++ post)) := by
  refine ⟨?_, ?_, ?_, ?_⟩
  · rw [sampleCodeFiles, List.length_take]
    omega
  · intro f hf
    rw [sampleCodeFiles] at hf
    have hmem := List.take_subset 5 _ hf
    rw [List.mem_filter] at hmem
    obtain ⟨hin, hq⟩ := hmem
    rw [qualifiesCodeFile] at hq
    simp only [Bool.and_eq_true, Bool.not_eq_true', beq_iff_eq] at hq
    exact ⟨hin, hq.1.1.1.1, hq.1.1.1.2, hq.1.1.2, hq.1.2, hq.2⟩
  · intro content
    constructor
    · intro hle
      unfold truncateContent
      rw [if_neg (by omega), List.take_of_length_le hle]
      apply strData_inj
      rw [strData_append]
      rw [show (String.mk content.data) = content by cases content; rfl]
      rw [show ("" : String).data = [] from rfl, List.append_nil]
    · intro hgt
      unfold truncateContent
      rw [if_pos (by omega)]
      rw [strData_append]
  · intro fetchFile pre post f hfail
    induction pre with
    | nil =>
      rw [List.nil_append, List.nil_append, buildSampleCode_cons, hfail]
      apply strData_inj
      simp [strData_append]
    | cons x t ih =>
      rw [List.cons_append, List.cons_append, buildSampleCode_cons, buildSampleCode_cons, ih]

theorem customFold_acc :
    ∀ (l : List CustomSection) (acc : String),
      l.foldl (fun acc s => acc ++ renderCustomSection s) acc = acc ++ customFold l := by
  intro l
  induction l with
  | nil =>
    intro acc
    rw [List.foldl_nil, show customFold [] = "" from rfl, strAppend_empty]
  | cons x t ih =>
    intro acc
    rw [List.foldl_cons]
    rw [show customFold (x :: t) = List.foldl (fun acc s => acc ++ renderCustomSection s)
      ("" ++ renderCustomSection x) t from rfl]
    rw [ih, ih, strEmpty_append, strAppend_assoc]

theorem customFold_cons (x : CustomSection) (l : List CustomSection) :
    customFold (x :: l) = renderCustomSection x ++ customFold l := by
  rw [show customFold (x :: l) = List.foldl (fun acc s => acc ++ renderCustomSection s)
    ("" ++ renderCustomSection x) l from rfl]
  rw [customFold_acc, strEmpty_append]

theorem customFold_append (l1 l2 : List CustomSection) :
    customFold (l1 ++ l2) = customFold l1 ++ customFold l2 := by
  induction l1 with
  | nil =>
    rw [List.nil_append, show customFold [] = "" from rfl, strEmpty_append]
  | cons x t ih =>
    rw [List.cons_append, customFold_cons, customFold_cons, ih, strAppend_assoc]

theorem renderCustomSection_empty {sec : CustomSection}
    (h : sec.title = "" ∨ sec.content = "") : renderCustomSection sec = "" := by
  unfold renderCustomSection
  rcases h with h | h <;> rw [if_neg (by simp [h])]

/-- Claim C10: a custom section whose title or content is empty is omitted
entirely - generating with it inserted anywhere in the list produces exactly
the document generated without it, for every record and options object. -/
theorem c10_empty_custom_section_omitted (today : String) (r : Repository)
    (o : ReadmeOptions) (pre post : List CustomSection) (sec : CustomSection)
    (h : sec.title = "" ∨ sec.content = "") :
    generateReadmeContent today r { o with customSections := pre ++ sec :: post } =
      generateReadmeContent today r { o with customSections := pre ++ post } := by
  have hc : customFold (pre ++ sec :: post) = customFold (pre ++ post) := by
    rw [customFold_append, customFold_append, customFold_cons, renderCustomSection_empty h]
    apply strData_inj
    simp [strData_append]
  unfold generateReadmeContent
  simp only []
  rw [hc]

/-- Claim C6 counterexample: a record with an absent (null) description makes
generateReadmeContent throw a TypeError (the toLowerCase call of the
overview sentence), refuting "returns a text document and never fails" as a
statement about every record. -/
theorem c6_counterexample_null_description :
    generateReadmeContent "1/1/2025" demoBadRecord demoAllOptions =
      .error JsError.typeError := rfl

/-- Claim C6 amended: generation returns a text document provided the
description is present (a possibly empty string) and, whenever the usage
section is included while the language is one of the four hard-coded
languages (JavaScript, TypeScript, Python or Java), the fullName has a
second "/"-segment; all other absent or empty fields degrade to empty or
placeholder sub-sections. A null description, or a missing second segment in
the hard-coded-language usage case, makes generation throw instead. -/
theorem c6_generate_total (today : String) (r : Repository) (o : ReadmeOptions)
    (d : String) (hd : r.description = some d)
    (hu : o.includeUsage = true →
      (r.language = some "JavaScript" ∨ r.language = some "TypeScript" ∨
        r.language = some "Python" ∨ r.language = some "Java") →
      ((splitOnChar '/' r.fullName.data).get? 1).isSome) :
    ∃ s, generateReadmeContent today r o = .ok s := by
  unfold generateReadmeContent
  simp only []
  rw [hd]
  cases hio : o.includeUsage with
  | false =>
    exact ⟨_, rfl⟩
  | true =>
    have hok : ∃ u, usageBlockE r (((splitOnChar '/' r.fullName.data).get? 1).map String.mk)
        = .ok u := by
      unfold usageBlockE
      by_cases h1 : (r.language == some "JavaScript" || r.language == some "TypeScript" ||
          r.language == some "Python" || r.language == some "Java") = true
      case pos =>
        have hl : r.language = some "JavaScript" ∨ r.language = some "TypeScript" ∨
            r.language = some "Python" ∨ r.language = some "Java" := by
          simpa only [Bool.or_eq_true, beq_iff_eq, or_assoc] using h1
        obtain ⟨x, hx⟩ := Option.isSome_iff_exists.mp (hu hio hl)
        rw [if_pos h1, hx]
        exact ⟨_, rfl⟩
      case neg =>
        rw [if_neg h1]
        exact ⟨_, rfl⟩
    obtain ⟨u, hu2⟩ := hok
    rw [hu2]
    exact ⟨_, rfl⟩

/-- Claim C6 amended, witness instance at a concrete record and options. -/
theorem c6_generate_total_witness :
    ∃ s, generateReadmeContent "1/1/2025" demoOkRecord demoAllOptions = .ok s :=
  c6_generate_total "1/1/2025" demoOkRecord demoAllOptions "Demo project" rfl
    (fun _ _ => by decide)

theorem mapSet_cons_ne (q : String × Repository) (t : Storage) (id : String)
    (data : Repository) (h : (q.1 == id) = false) :
    mapSet (q :: t) id data = q :: mapSet t id data := by
  unfold mapSet
  rw [List.any_cons, h, Bool.false_or]
  by_cases ha : (t.any fun x => x.1 == id) = true
  · rw [if_pos ha, if_pos ha, List.map_cons, h]
    rfl
  · rw [if_neg ha, if_neg ha, List.cons_append]

theorem getByFullName_cons (q : String × Repository) (t : Storage) (fn : String) :
    getRepositoryByFullName (q :: t) fn =
      if (q.2.fullName == fn) = true then some q.2 else getRepositoryByFullName t fn := by
  unfold getRepositoryByFullName
  rw [List.map_cons]
  by_cases hp : (q.2.fullName == fn) = true
  · rw [if_pos hp]
    exact List.find?_cons_of_pos _ hp
  · rw [if_neg hp]
    exact List.find?_cons_of_neg _ (by simp [hp])

theorem getByFullName_after_set (st : Storage) (fn : String) (data : Repository)
    (hnone : getRepositoryByFullName st fn = none) (hdata : data.fullName = fn) :
    getRepositoryByFullName (mapSet st data.id data) fn = some data := by
  induction st with
  | nil =>
    rw [show mapSet [] data.id data = [(data.id, data)] from rfl, getByFullName_cons]
    rw [if_pos (by simp [hdata])]
  | cons q t ih =>
    have hqfn : (q.2.fullName == fn) = false := by
      rw [getByFullName_cons] at hnone
      by_cases hb : (q.2.fullName == fn) = true
      · rw [if_pos hb] at hnone
        cases hnone
      · simpa using hb
    have htnone : getRepositoryByFullName t fn = none := by
      rw [getByFullName_cons, if_neg (by simp [hqfn])] at hnone
      exact hnone
    by_cases hid : (q.1 == data.id) = true
    · have hms : mapSet (q :: t) data.id data
          = (data.id, data) :: t.map (fun x => if (x.1 == data.id) = true
              then (data.id, data) else x) := by
        unfold mapSet
        rw [if_pos (by rw [List.any_cons, hid, Bool.true_or]), List.map_cons, hid]
        rfl
      rw [hms, getByFullName_cons]
      rw [if_pos (by simp [hdata])]
    · rw [mapSet_cons_ne q t data.id data (by simpa using hid), getByFullName_cons,
        if_neg (by simp [hqfn])]
      exact ih htnone

/-- Claim C3: after a successful ingest whose produced record is keyed by the
requested owner/name pair, running the /api/analyze handler again on the
same URL (with any provider and environment) issues zero provider calls,
leaves the storage unchanged, and returns the identical record. -/
theorem c3_second_ingest_cached (env env2 : JsEnv) (p p2 : GitHubProvider)
    (url : String) (st st1 : Storage) (r : Repository) (n : Nat)
    (owner repo : String)
    (hx : extractOwnerRepo url = (some owner, some repo))
    (h1 : analyzeHandler env p true url st = (.okRepo r, st1, n))
    (hfn : r.fullName = owner ++ "/" ++ repo) :
    analyzeHandler env2 p2 true url st1 = (.okRepo r, st1, 0) := by
  by_cases hinc : (jsIncludes url "github.com") = true
  case neg =>
    exfalso
    unfold analyzeHandler at h1
    rw [if_neg (by simp), if_pos (by simp [hinc])] at h1
    simp at h1
  case pos =>
    unfold analyzeHandler at h1 ⊢
    rw [if_neg (by simp), if_neg (by simp [hinc])] at h1
    rw [if_neg (by simp), if_neg (by simp [hinc])]
    rw [hx] at h1
    rw [hx]
    simp only [] at h1 ⊢
    by_cases hempt : (owner == "" || repo == "") = true
    case pos =>
      rw [if_pos hempt] at h1
      simp at h1
    case neg =>
      rw [if_neg (by simp [hempt])] at h1
      rw [if_neg (by simp [hempt])]
      cases hlook : getRepositoryByFullName st (owner ++ "/" ++ repo) with
      | some ex =>
        rw [hlook] at h1
        injection h1 with ha hb
        injection ha with ha2
        injection hb with hb1 hb2
        subst ha2
        subst hb1
        rw [hlook]
      | none =>
        rw [hlook] at h1
        cases hfetch : fetchRepositoryData env p owner repo with
        | mk res cnt =>
          rw [hfetch] at h1
          cases res with
          | error e =>
            exfalso
            cases e <;> simp [mapAxiosFailure] at h1
          | ok data =>
            simp only [createRepository] at h1
            injection h1 with ha hb
            injection ha with ha2
            injection hb with hb1 hb2
            subst ha2
            subst hb1
            rw [getByFullName_after_set st (owner ++ "/" ++ repo) _ hlook hfn]

theorem generateReadmeContent_ok (today : String) (r : Repository) (o : ReadmeOptions)
    (desc rn : String) (hd : r.description = some desc)
    (hrn : ((splitOnChar '/' r.fullName.data).get? 1).map String.mk = some rn) :
    generateReadmeContent today r o =
      .ok (stdSections r o desc rn ++ customFold o.customSections ++ footerStr today) := by
  have hu : usageBlockE r (some rn) = .ok (usageStrOf r rn) := by
    unfold usageBlockE
    split
    · rfl
    · rfl
  unfold generateReadmeContent stdSections
  simp only []
  rw [hd, hrn]
  cases hio : o.includeUsage with
  | true =>
    rw [hu]
    rfl
  | false => rfl

theorem linesOkStr_append {a b : String} (ha : LinesOkStr a) (hb : LinesOkStr b) :
    LinesOkStr (a ++ b) := by
  unfold LinesOkStr
  rw [strData_append]
  exact linesOk_append ha hb

theorem linesOkStr_line {c : String} (hnl : '\n' ∉ c.data)
    (hp : c.data ≠ installHeadingLine) : LinesOkStr (c ++ "\n") := by
  unfold LinesOkStr
  rw [strData_append, show ("\n" : String).data = ['\n'] from rfl]
  exact linesOk_single (by decide) hnl hp

theorem linesOkStr_chunk {c : String} (h : installHeadingLine ∉ lineSplit c.data) :
    LinesOkStr (c ++ "\n") := by
  unfold LinesOkStr
  rw [strData_append, show ("\n" : String).data = ['\n'] from rfl]
  exact linesOk_chunk (by decide) h

theorem linesOkStr_empty : LinesOkStr "" := by decide

theorem not_mem_strAppend {ch : Char} {a b : String} (ha : ch ∉ a.data) (hb : ch ∉ b.data) :
    ch ∉ (a ++ b).data := by
  rw [strData_append]
  intro h
  rcases List.mem_append.mp h with h1 | h2
  · exact ha h1
  · exact hb h2

theorem ne_installLine_append_lit {lit : String} {t : List Char}
    (h : ¬lit.data.head? = some '#') (hlit : lit.data ≠ []) :
    (lit.data ++ t) ≠ installHeadingLine := by
  intro he
  cases hl : lit.data with
  | nil => exact hlit hl
  | cons c cs =>
    rw [hl, List.cons_append] at he
    injection he with h1 _
    exact h (by rw [hl, h1]; rfl)

theorem ne_installLine_hashSpace {t : List Char} : ('#' :: ' ' :: t) ≠ installHeadingLine := by
  intro h
  injection h with _ h2
  injection h2 with h3 _
  exact absurd h3 (by decide)

theorem ne_installLine_heading {title : String} (h : title ≠ "Installation") :
    ("## " ++ title).data ≠ installHeadingLine := by
  rw [strData_append, show ("## " : String).data = ['#', '#', ' '] from rfl]
  intro he
  apply h
  apply strData_inj
  have h2 : ['#', '#', ' '] ++ title.data
      = ['#', '#', ' '] ++ ("Installation" : String).data := by
    rw [he]
    decide
  exact List.append_cancel_left h2

theorem langListOf_acc :
    ∀ (l : List LangEntry) (acc : String),
      l.foldl (fun acc x => acc ++ renderLangLine x) acc = acc ++ langListOf l := by
  intro l
  induction l with
  | nil =>
    intro acc
    rw [List.foldl_nil, show langListOf [] = "" from rfl, strAppend_empty]
  | cons x t ih =>
    intro acc
    rw [List.foldl_cons]
    rw [show langListOf (x :: t) = List.foldl (fun acc x => acc ++ renderLangLine x)
      ("" ++ renderLangLine x) t from rfl]
    rw [ih, ih, strEmpty_append, strAppend_assoc]

theorem langListOf_cons (x : LangEntry) (l : List LangEntry) :
    langListOf (x :: l) = renderLangLine x ++ langListOf l := by
  rw [show langListOf (x :: l) = List.foldl (fun acc x => acc ++ renderLangLine x)
    ("" ++ renderLangLine x) l from rfl]
  rw [langListOf_acc, strEmpty_append]

theorem linesOk_renderLangLine (l : LangEntry) (hname : '\n' ∉ l.name.data) :
    LinesOkStr (renderLangLine l) := by
  rw [show renderLangLine l
    = ("- " ++ l.name ++ ": " ++ toFixed1 l.percentage ++ "%") ++ "\n" by
      apply strData_inj
      simp [renderLangLine, strData_append]]
  apply linesOkStr_line
  · exact not_mem_strAppend (not_mem_strAppend (not_mem_strAppend
      (not_mem_strAppend (by decide) hname) (by decide))
      (not_mem_toFixed1 (by decide) (by decide) (by decide) _)) (by decide)
  · simp only [strData_append, List.append_assoc]
    exact ne_installLine_append_lit (by decide) (by decide)

theorem linesOk_langList (langs : List LangEntry)
    (h : ∀ l ∈ langs, '\n' ∉ l.name.data) : LinesOkStr (langListOf langs) := by
  induction langs with
  | nil => exact linesOkStr_empty
  | cons x t ih =>
    rw [langListOf_cons]
    exact linesOkStr_append
      (linesOk_renderLangLine x (h x (List.mem_cons_self x t)))
      (ih fun l hl => h l (List.mem_cons_of_mem x hl))

theorem linesOk_headPart (r : Repository) (desc rn : String)
    (hdesc1 : '\n' ∉ desc.data) (hdesc2 : '#' ∉ desc.data)
    (hrn1 : '\n' ∉ rn.data)
    (hfn : '\n' ∉ r.fullName.data) (hlang : '\n' ∉ (jsNull r.language).data)
    (hlangs : ∀ l ∈ r.languages, '\n' ∉ l.name.data) :
    LinesOkStr (headPart r desc (some rn)) := by
  have hdl : '\n' ∉ (jsToLower desc).data := toLower_map_not_mem (by decide) hdesc1
  rw [show headPart r desc (some rn)
    = (("# " ++ rn) ++ "\n") ++ "\n" ++
      (desc ++ "\n") ++ "\n" ++
      (("![GitHub stars](https://img.shields.io/github/stars/" ++ r.fullName ++
        "?style=social) ![License](https://img.shields.io/github/license/" ++ r.fullName ++
        ") ![Last commit](https://img.shields.io/github/last-commit/" ++ r.fullName ++ ")")
        ++ "\n") ++ "\n" ++
      "## Overview\n\n" ++
      (("This repository contains a " ++ jsNull r.language ++ " project that " ++
        jsToLower desc ++ ".") ++ "\n") ++ "\n" ++
      "## Languages\n\n" ++
      langListOf r.languages ++ "\n" by
        apply strData_inj
        simp [headPart, badgesLine, jsUndef, strData_append]]
  refine linesOkStr_append (linesOkStr_append (linesOkStr_append (linesOkStr_append
    (linesOkStr_append (linesOkStr_append (linesOkStr_append (linesOkStr_append
    (linesOkStr_append (linesOkStr_append (linesOkStr_append ?_ ?_) ?_) ?_) ?_) ?_)
    ?_) ?_) ?_) ?_) ?_) ?_
  · apply linesOkStr_line (not_mem_strAppend (by decide) hrn1)
    rw [strData_append, show ("# " : String).data = ['#', ' '] from rfl]
    exact ne_installLine_hashSpace
  · decide
  · exact linesOkStr_line hdesc1 (ne_installLine_of_noHash hdesc2)
  · decide
  · apply linesOkStr_line
    · exact not_mem_strAppend (not_mem_strAppend (not_mem_strAppend (not_mem_strAppend
        (not_mem_strAppend (not_mem_strAppend (by decide) hfn) (by decide)) hfn)
        (by decide)) hfn) (by decide)
    · simp only [strData_append, List.append_assoc]
      exact ne_installLine_append_lit (by decide) (by decide)
  · decide
  · decide
  · apply linesOkStr_line
    · exact not_mem_strAppend (not_mem_strAppend (not_mem_strAppend (not_mem_strAppend
        (by decide) hlang) (by decide)) hdl) (by decide)
    · simp only [strData_append, List.append_assoc]
      exact ne_installLine_append_lit (by decide) (by decide)
  · decide
  · decide
  · exact linesOk_langList r.languages hlangs
  · decide

theorem linesOk_usageStr (r : Repository) (rn : String)
    (hrn1 : '\n' ∉ rn.data) (hrn2 : '#' ∉ rn.data) : LinesOkStr (usageStrOf r rn) := by
  have hL1 : '\n' ∉ (jsToLower rn).data := toLower_map_not_mem (by decide) hrn1
  have hL2 : '#' ∉ (jsToLower rn).data := toLower_map_not_mem (by decide) hrn2
  unfold usageStrOf
  split
  · rw [show "## Usage\n\n" ++ "\x60\x60\x60" ++ "javascript\n" ++
        "import \x7b " ++ rn ++ " \x7d from \x27" ++ jsToLower rn ++ "\x27;\n\n" ++
        "// Initialize the component\n" ++
        "const " ++ jsToLower rn ++ " = new " ++ rn ++ "();\n" ++
        jsToLower rn ++ ".start();\n" ++ "\x60\x60\x60\n\n"
      = "## Usage\n\n\x60\x60\x60javascript\n" ++
        (("import \x7b " ++ rn ++ " \x7d from \x27" ++ jsToLower rn ++ "\x27;") ++ "\n") ++
        "\n// Initialize the component\n" ++
        (("const " ++ jsToLower rn ++ " = new " ++ rn ++ "();") ++ "\n") ++
        ((jsToLower rn ++ ".start();") ++ "\n") ++
        "\x60\x60\x60\n\n" by
        apply strData_inj
        simp [strData_append]]
    refine linesOkStr_append (linesOkStr_append (linesOkStr_append (linesOkStr_append
      (linesOkStr_append ?_ ?_) ?_) ?_) ?_) ?_
    · decide
    · apply linesOkStr_line
      · exact not_mem_strAppend (not_mem_strAppend (not_mem_strAppend (not_mem_strAppend
          (by decide) hrn1) (by decide)) hL1) (by decide)
      · simp only [strData_append, List.append_assoc]
        exact ne_installLine_append_lit (by decide) (by decide)
    · decide
    · apply linesOkStr_line
      · exact not_mem_strAppend (not_mem_strAppend (not_mem_strAppend (not_mem_strAppend
          (by decide) hL1) (by decide)) hrn1) (by decide)
      · simp only [strData_append, List.append_assoc]
        exact ne_installLine_append_lit (by decide) (by decide)
    · apply linesOkStr_line (not_mem_strAppend hL1 (by decide))
      exact ne_installLine_of_noHash (not_mem_strAppend hL2 (by decide))
    · decide
  · split
    · rw [show "## Usage\n\n" ++ "\x60\x60\x60" ++ "python\n" ++
          "from " ++ jsToLower rn ++ " import " ++ rn ++ "\n\n" ++
          "# Initialize the component\n" ++
          jsToLower rn ++ " = " ++ rn ++ "()\n" ++
          jsToLower rn ++ ".start()\n" ++ "\x60\x60\x60\n\n"
        = "## Usage\n\n\x60\x60\x60python\n" ++
          (("from " ++ jsToLower rn ++ " import " ++ rn) ++ "\n") ++
          "\n# Initialize the component\n" ++
          ((jsToLower rn ++ " = " ++ rn ++ "()") ++ "\n") ++
          ((jsToLower rn ++ ".start()") ++ "\n") ++
          "\x60\x60\x60\n\n" by
          apply strData_inj
          simp [strData_append]]
      refine linesOkStr_append (linesOkStr_append (linesOkStr_append (linesOkStr_append
        (linesOkStr_append ?_ ?_) ?_) ?_) ?_) ?_
      · decide
      · apply linesOkStr_line
        · exact not_mem_strAppend (not_mem_strAppend (not_mem_strAppend
            (by decide) hL1) (by decide)) hrn1
        · simp only [strData_append, List.append_assoc]
          exact ne_installLine_append_lit (by decide) (by decide)
      · decide
      · apply linesOkStr_line
        · exact not_mem_strAppend (not_mem_strAppend (not_mem_strAppend hL1 (by decide))
            hrn1) (by decide)
        · exact ne_installLine_of_noHash (not_mem_strAppend (not_mem_strAppend
            (not_mem_strAppend hL2 (by decide)) hrn2) (by decide))
      · apply linesOkStr_line (not_mem_strAppend hL1 (by decide))
        exact ne_installLine_of_noHash (not_mem_strAppend hL2 (by decide))
      · decide
    · split
      · rw [show "## Usage\n\n" ++ "\x60\x60\x60" ++ "java\n" ++
            "import com.example." ++ rn ++ ";\n\n" ++
            "// Initialize the component\n" ++
            rn ++ " " ++ jsToLower rn ++ " = new " ++ rn ++ "();\n" ++
            jsToLower rn ++ ".start();\n" ++ "\x60\x60\x60\n\n"
          = "## Usage\n\n\x60\x60\x60java\n" ++
            (("import com.example." ++ rn ++ ";") ++ "\n") ++
            "\n// Initialize the component\n" ++
            ((rn ++ " " ++ jsToLower rn ++ " = new " ++ rn ++ "();") ++ "\n") ++
            ((jsToLower rn ++ ".start();") ++ "\n") ++
            "\x60\x60\x60\n\n" by
            apply strData_inj
            simp [strData_append]]
        refine linesOkStr_append (linesOkStr_append (linesOkStr_append (linesOkStr_append
          (linesOkStr_append ?_ ?_) ?_) ?_) ?_) ?_
        · decide
        · apply linesOkStr_line
          · exact not_mem_strAppend (not_mem_strAppend (by decide) hrn1) (by decide)
          · simp only [strData_append, List.append_assoc]
            exact ne_installLine_append_lit (by decide) (by decide)
        · decide
        · apply linesOkStr_line
          · exact not_mem_strAppend (not_mem_strAppend (not_mem_strAppend (not_mem_strAppend
              (not_mem_strAppend hrn1 (by decide)) hL1) (by decide)) hrn1) (by decide)
          · exact ne_installLine_of_noHash (not_mem_strAppend (not_mem_strAppend
              (not_mem_strAppend (not_mem_strAppend (not_mem_strAppend hrn2 (by decide))
              hL2) (by decide)) hrn2) (by decide))
        · apply linesOkStr_line (not_mem_strAppend hL1 (by decide))
          exact ne_installLine_of_noHash (not_mem_strAppend hL2 (by decide))
        · decide
      · rw [show "## Usage\n\n" ++ "\x60\x60\x60" ++ "\n// Example usage code for " ++
            rn ++ "\n" ++ "\x60\x60\x60\n\n"
          = "## Usage\n\n\x60\x60\x60\n" ++
            (("// Example usage code for " ++ rn) ++ "\n") ++
            "\x60\x60\x60\n\n" by
            apply strData_inj
            simp [strData_append]]
        refine linesOkStr_append (linesOkStr_append ?_ ?_) ?_
        · decide
        · apply linesOkStr_line (not_mem_strAppend (by decide) hrn1)
          simp only [strData_append, List.append_assoc]
          exact ne_installLine_append_lit (by decide) (by decide)
        · decide

theorem linesOk_renderCustom (sec : CustomSection) (h1 : '\n' ∉ sec.title.data)
    (h2 : sec.title ≠ "Installation")
    (h3 : installHeadingLine ∉ lineSplit sec.content.data) :
    LinesOkStr (renderCustomSection sec) := by
  unfold renderCustomSection
  split
  · rw [show "## " ++ sec.title ++ "\n\n" ++ sec.content ++ "\n\n"
      = (("## " ++ sec.title) ++ "\n") ++ "\n" ++ (sec.content ++ "\n") ++ "\n" by
        apply strData_inj
        simp [strData_append]]
    refine linesOkStr_append (linesOkStr_append (linesOkStr_append ?_ ?_) ?_) ?_
    · exact linesOkStr_line (not_mem_strAppend (by decide) h1) (ne_installLine_heading h2)
    · decide
    · exact linesOkStr_chunk h3
    · decide
  · exact linesOkStr_empty

theorem linesOk_customFold (sections : List CustomSection)
    (h : ∀ sec ∈ sections, '\n' ∉ sec.title.data ∧ sec.title ≠ "Installation" ∧
      installHeadingLine ∉ lineSplit sec.content.data) :
    LinesOkStr (customFold sections) := by
  induction sections with
  | nil => exact linesOkStr_empty
  | cons x t ih =>
    rw [customFold_cons]
    obtain ⟨a, b, c⟩ := h x (List.mem_cons_self x t)
    exact linesOkStr_append (linesOk_renderCustom x a b c)
      (ih fun sec hs => h sec (List.mem_cons_of_mem x hs))

theorem linesOk_footer (today : String) (h : '\n' ∉ today.data) :
    LinesOkStr (footerStr today) := by
  rw [show footerStr today = "---\n\n"
      ++ (("Generated by GitHub Repository Analyzer on " ++ today) ++ "\n") by
    apply strData_inj
    simp [footerStr, strData_append]]
  refine linesOkStr_append ?_ ?_
  · decide
  · apply linesOkStr_line (not_mem_strAppend (by decide) h)
    simp only [strData_append, List.append_assoc]
    exact ne_installLine_append_lit (by decide) (by decide)

theorem linesOk_stdSections (r : Repository) (o : ReadmeOptions) (desc rn : String)
    (hinst : o.includeInstallation = false)
    (hdesc1 : '\n' ∉ desc.data) (hdesc2 : '#' ∉ desc.data)
    (hrn1 : '\n' ∉ rn.data) (hrn2 : '#' ∉ rn.data)
    (hfn : '\n' ∉ r.fullName.data) (hlang : '\n' ∉ (jsNull r.language).data)
    (hlangs : ∀ l ∈ r.languages, '\n' ∉ l.name.data) :
    LinesOkStr (stdSections r o desc rn) := by
  unfold stdSections
  rw [hinst]
  refine linesOkStr_append (linesOkStr_append (linesOkStr_append (linesOkStr_append
    (linesOk_headPart r desc rn hdesc1 hdesc2 hrn1 hfn hlang hlangs) ?_) ?_) ?_) ?_
  · exact linesOkStr_empty
  · split
    · exact linesOk_usageStr r rn hrn1 hrn2
    · exact linesOkStr_empty
  · split
    · decide
    · exact linesOkStr_empty
  · split
    · decide
    · exact linesOkStr_empty

/-- Claim C8: with includeInstallation set to false the generated document
has no "## Installation" heading line - provided the record's own free-text
fields do not themselves smuggle one in (newline-free description, repo
name, fullName, language, language names and date; custom sections whose
titles are not "Installation" and whose contents contain no such line) - and
every custom section with a truthy title and content is emitted as its
"## title" block followed by its content, after all standard sections and
before the footer, in list order. -/
theorem c8_installation_omitted_custom_order (today : String) (r : Repository)
    (o : ReadmeOptions) (desc rn : String)
    (hinst : o.includeInstallation = false)
    (hd : r.description = some desc)
    (hrn : ((splitOnChar '/' r.fullName.data).get? 1).map String.mk = some rn)
    (hdesc1 : '\n' ∉ desc.data) (hdesc2 : '#' ∉ desc.data)
    (hrn1 : '\n' ∉ rn.data) (hrn2 : '#' ∉ rn.data)
    (hfn : '\n' ∉ r.fullName.data)
    (hlang : '\n' ∉ (jsNull r.language).data)
    (hlangs : ∀ l ∈ r.languages, '\n' ∉ l.name.data)
    (htoday : '\n' ∉ today.data)
    (hcs : ∀ sec ∈ o.customSections, '\n' ∉ sec.title.data ∧ sec.title ≠ "Installation" ∧
      installHeadingLine ∉ lineSplit sec.content.data) :
    generateReadmeContent today r o =
      .ok (stdSections r o desc rn ++ customFold o.customSections ++ footerStr today)
    ∧ installHeadingLine ∉ lineSplit
        (stdSections r o desc rn ++ customFold o.customSections ++ footerStr today).data
    ∧ installHeadingLine = ("## Installation" : String).data
    ∧ (∀ sec : CustomSection, sec.title ≠ "" → sec.content ≠ "" →
        renderCustomSection sec = "## " ++ sec.title ++ "\n\n" ++ sec.content ++ "\n\n")
    ∧ ∀ pre sec post, o.customSections = pre ++ sec :: post →
        stdSections r o desc rn ++ customFold o.customSections ++ footerStr today =
          stdSections r o desc rn ++ customFold pre ++ renderCustomSection sec ++
            customFold post ++ footerStr today := by
  refine ⟨generateReadmeContent_ok today r o desc rn hd hrn, ?_, by decide, ?_, ?_⟩
  · have hall : LinesOkStr
        (stdSections r o desc rn ++ customFold o.customSections ++ footerStr today) :=
      linesOkStr_append (linesOkStr_append
        (linesOk_stdSections r o desc rn hinst hdesc1 hdesc2 hrn1 hrn2 hfn hlang hlangs)
        (linesOk_customFold o.customSections hcs)) (linesOk_footer today htoday)
    exact hall.1
  · intro sec ht hc
    unfold renderCustomSection
    rw [if_pos (by simp [ht, hc])]
  · intro pre sec post he
    rw [he, customFold_append, customFold_cons]
    apply strData_inj
    simp [strData_append]

/-- Claim C8 witness: the generated document for a concrete record, with
installation excluded and a Notes custom section, contains no
"## Installation" line. -/
theorem c8_installation_omitted_custom_order_witness :
    installHeadingLine ∉ lineSplit
      (stdSections demoOkRecord demoC8Options "Demo project" "proj" ++
        customFold demoC8Options.customSections ++ footerStr "1/1/2025").data :=
  (c8_installation_omitted_custom_order "1/1/2025" demoOkRecord demoC8Options
    "Demo project" "proj" rfl rfl (by decide) (by decide) (by decide) (by decide)
    (by decide) (by decide) (by decide) (by decide) (by decide) (by decide)).2.1

/-- Claim C1 amended, witness instance: the empty weekly-bucket array yields
a commitActivity of length 0. -/
theorem c1_commit_activity_length_witness :
    (fetchRepositoryData demoEnv demoProvider "alice" "proj").1.map
      (fun r => r.commitActivity.length) = .ok 0 :=
  (c1_commit_activity_length demoEnv demoInfo [] (CommitPayload.arr []) "alice" "proj").1

/-- Claim C2, witness instance of the never-NoCompletion part. -/
theorem c2_empty_choices_generic_error_witness :
    analyzeCode (some "key") ORNetOutcome.transportErr ≠
      .error "No response from OpenRouter API" :=
  c2_empty_choices_generic_error.2 (some "key") ORNetOutcome.transportErr

/-- Claim C3, witness instance: re-running the handler on the storage left by
a concrete successful ingest, now against a failing provider, still answers
from the cache with zero provider calls. -/
theorem c3_second_ingest_cached_witness :
    analyzeHandler demoEnv demoFailProvider true demoUrl [("1", demoRecord)] =
      (.okRepo demoRecord, [("1", demoRecord)], 0) :=
  c3_second_ingest_cached demoEnv demoEnv demoProvider demoFailProvider demoUrl []
    [("1", demoRecord)] demoRecord 3 "alice" "proj" (by decide) rfl (by decide)

/-- Claim C4, witness instance: the 59-seconds boundary. -/
theorem c4_relative_time_matches_spec_witness :
    getRelativeTimeString (1000 * 59) 0 = "just now" :=
  c4_relative_time_matches_spec.2.1

/-- Claim C5, witness instance: percentages of a concrete two-language byte
map sum to exactly 100. -/
theorem c5_language_percentages_witness :
    ((languagesOf [("TypeScript", 30), ("Python", 70)]).map fun l => l.percentage).sum
      = 100 :=
  (c5_language_percentages [("TypeScript", 30), ("Python", 70)]).2.2.1 (by decide)

/-- Claim C7, witness instance: a concrete tree samples at most five files,
a short content is untouched, and one failing fetch only drops that file's
block. -/
theorem c7_repository_sampler_witness :
    (sampleCodeFiles demoTree).length ≤ 5
    ∧ truncateContent "ab" = "ab"
    ∧ buildSampleCode demoFetchFile
        [{ type := "blob", path := "a.ts" }, { type := "blob", path := "e.py" }]
      = buildSampleCode demoFetchFile [{ type := "blob", path := "e.py" }] :=
  ⟨(c7_repository_sampler demoTree).1,
    ((c7_repository_sampler demoTree).2.2.1 "ab").1 (by decide),
    (c7_repository_sampler demoTree).2.2.2 demoFetchFile []
      [{ type := "blob", path := "e.py" }] { type := "blob", path := "a.ts" } (by decide)⟩

/-- Claim C9, witness instance: trailing-slash invariance at a concrete
URL. -/
theorem c9_url_extraction_witness :
    extractOwnerRepo ("https://github.com/alice/proj" ++ "/") =
      extractOwnerRepo "https://github.com/alice/proj" :=
  c9_url_extraction.1 "https://github.com/alice/proj" (by decide)

/-- Claim C10, witness instance: an empty-content custom section changes
nothing. -/
theorem c10_empty_custom_section_omitted_witness :
    generateReadmeContent "1/1/2025" demoOkRecord
      { demoAllOptions with customSections := [{ title := "Empty", content := "" }] } =
    generateReadmeContent "1/1/2025" demoOkRecord
      { demoAllOptions with customSections := [] } :=
  c10_empty_custom_section_omitted "1/1/2025" demoOkRecord demoAllOptions [] []
    { title := "Empty", content := "" } (Or.inr rfl)

end GHI
